import Mathlib

/-!
Formal model of the banner registry and auction module
(`src/runtime/src/banners.rs` of polkaworld-org/apollo).

The module is a Substrate-1.0-era runtime pallet.  We embed it shallowly:
the storage items of `decl_storage!` become fields of a state record `St`,
each dispatchable and internal function becomes a Lean function
`St -> St x Outcome` that mirrors the Rust control flow statement by
statement.  Storage writes in that era of the framework are applied
immediately and are NOT rolled back when the dispatch later returns an
error, so a failing operation returns the state as mutated up to the point
of failure, exactly as the chain of `?` early returns in the source does.

Machine integers: the index counters are `u64` with `checked_add` and
`checked_sub`; we model them as `Nat` together with explicit bound checks
against `2 ^ 64`.  The nonce and block arithmetic use wrapping `u64`
addition, modelled with an explicit `% 2 ^ 64`.  Balances are `Nat`.

External collaborators (authentication, hashing, the clock and the value
ledger) are out of the source file; they enter as parameters (the verified
sender, the generated identifier, the current block number) or, for the
value ledger, as `currency_transfer` below, modelled from the spec.

Error strings follow the source literals, with apostrophe characters
elided from three of them.
-/

namespace Apollo

abbrev AccountId := Nat
abbrev Hash := Nat
abbrev Balance := Nat
abbrev BlockNumber := Nat

/-- `const AUCTION_DURATION: u64 = 24*600;` (line 8 of the source). -/
def AUCTION_DURATION : Nat := 24 * 600

/-- One more than the largest `u64` value. -/
def U64_MOD : Nat := 2 ^ 64

/-- `u64::checked_add` on values below `2 ^ 64`. -/
def checked_add (a b : Nat) : Option Nat :=
  if a + b < U64_MOD then some (a + b) else none

/-- `u64::checked_sub`. -/
def checked_sub (a b : Nat) : Option Nat :=
  if b ≤ a then some (a - b) else none

/-- The `Banner` struct (lines 10-21 of the source). -/
structure Banner where
  id : Hash
  name : List Nat
  image_url : List Nat
  desc : List Nat
  current_price : Balance
  current_bidder : AccountId
  can_bid : Bool
  bid_end_height : BlockNumber
deriving DecidableEq

/-- The events of `decl_event!` (lines 27-41 of the source). -/
inductive Event where
  | CreateBanner : AccountId → Hash → Event
  | StartAuction : AccountId → Hash → Balance → Event
  | Bid : AccountId → Hash → Balance → Event
  | Transferred : AccountId → AccountId → Hash → Event
  | Deal : AccountId → Hash → Balance → Event
  | Abort : AccountId → Hash → Event
deriving DecidableEq

/-- Outcome of a dispatch: `Ok(())` or `Err(message)`. -/
inductive Outcome where
  | ok : Outcome
  | err : String → Outcome
deriving DecidableEq

/-- The storage of `decl_storage!` (lines 43-58), the balance ledger of the
external `balances` module, and the event log.  Maps return their default
value on missing keys, as Substrate storage maps do; `bannersExists` tracks
`<Banners<T>>::exists`. -/
structure St where
  banners : Hash → Banner
  bannersExists : Hash → Bool
  bannerOwner : Hash → Option AccountId
  allBannersArray : Nat → Hash
  allBannersCount : Nat
  allBannersIndex : Hash → Nat
  ownedBannersArray : AccountId × Nat → Hash
  ownedBannersCount : AccountId → Nat
  ownedBannersIndex : Hash → Nat
  nonce : Nat
  balances : AccountId → Balance
  events : List Event

/-- The default banner record (all fields zero / empty / false). -/
def emptyBanner : Banner :=
  { id := 0, name := [], image_url := [], desc := [], current_price := 0,
    current_bidder := 0, can_bid := false, bid_end_height := 0 }

/-- The empty store: no banners, zero counters, zero balances, no events. -/
def emptySt : St :=
  { banners := fun _ => emptyBanner
    bannersExists := fun _ => false
    bannerOwner := fun _ => none
    allBannersArray := fun _ => 0
    allBannersCount := 0
    allBannersIndex := fun _ => 0
    ownedBannersArray := fun _ => 0
    ownedBannersCount := fun _ => 0
    ownedBannersIndex := fun _ => 0
    nonce := 0
    balances := fun _ => 0
    events := [] }

/-- Modelled from the spec: the external value ledger
(`<balances::Module<T> as Currency<_>>::transfer`, used at lines 142-143 of
the source).  Per section 6 of the spec it debits `source` and credits
`dest`, failing when the balance of `source` is insufficient; on failure
nothing is written.  The debit of the source account and the credit of the
destination account are applied in sequence, in `transfer_balances`. -/
def transfer_balances (bal : AccountId → Balance) (source dest : AccountId)
    (amount : Balance) : AccountId → Balance :=
  let b1 := Function.update bal source (bal source - amount)
  Function.update b1 dest (b1 dest + amount)

/-- See `transfer_balances`: the external ledger transfer itself. -/
def currency_transfer (st : St) (source dest : AccountId) (amount : Balance) :
    St × Outcome :=
  if amount ≤ st.balances source then
    ({ st with balances := transfer_balances st.balances source dest amount }, Outcome.ok)
  else (st, Outcome.err "balance too low to send value")

/-- `Module::mint` (lines 179-206 of the source). -/
def mint (st : St) (toAcc : AccountId) (banner_id : Hash) (new_banner : Banner) :
    St × Outcome :=
  if (st.bannerOwner banner_id).isSome then (st, Outcome.err "banner already exists")
  else
    let owned_banner_count := st.ownedBannersCount toAcc
    match checked_add owned_banner_count 1 with
    | none => (st, Outcome.err "Overflow adding a new banner to account balance")
    | some new_owned_banner_count =>
      let all_banners_count := st.allBannersCount
      match checked_add all_banners_count 1 with
      | none => (st, Outcome.err "Overflow adding a new banner to total supply")
      | some new_all_banners_count =>
        ({ st with
            banners := Function.update st.banners banner_id new_banner
            bannersExists := Function.update st.bannersExists banner_id true
            bannerOwner := Function.update st.bannerOwner banner_id (some toAcc)
            allBannersArray :=
              Function.update st.allBannersArray all_banners_count banner_id
            allBannersCount := new_all_banners_count
            allBannersIndex :=
              Function.update st.allBannersIndex banner_id all_banners_count
            ownedBannersArray :=
              Function.update st.ownedBannersArray (toAcc, owned_banner_count) banner_id
            ownedBannersCount :=
              Function.update st.ownedBannersCount toAcc new_owned_banner_count
            ownedBannersIndex :=
              Function.update st.ownedBannersIndex banner_id owned_banner_count
            events := st.events ++ [Event.CreateBanner toAcc banner_id] },
          Outcome.ok)

/-- `create_banner` (lines 65-87 of the source).  The verified sender and
the generated identifier (the hash of the external random seed, the sender
and the nonce, produced by the external hashing collaborator) enter as
parameters. -/
def create_banner (st : St) (sender : AccountId) (random_hash : Hash)
    (name url desc : List Nat) : St × Outcome :=
  let new_banner : Banner :=
    { id := random_hash, name := name, image_url := url, desc := desc,
      current_price := 0, current_bidder := sender,
      bid_end_height := 0, can_bid := false }
  match mint st sender random_hash new_banner with
  | (st1, Outcome.err e) => (st1, Outcome.err e)
  | (st1, Outcome.ok) => ({ st1 with nonce := (st1.nonce + 1) % U64_MOD }, Outcome.ok)

/-- `set_image_url` (lines 89-103 of the source). -/
def set_image_url (st : St) (sender : AccountId) (banner_id : Hash)
    (new_url : List Nat) : St × Outcome :=
  if st.bannersExists banner_id then
    match st.bannerOwner banner_id with
    | none => (st, Outcome.err "No owner for this banner")
    | some owner =>
      if owner = sender then
        let banner := st.banners banner_id
        ({ st with banners :=
            Function.update st.banners banner_id { banner with image_url := new_url } },
          Outcome.ok)
      else (st, Outcome.err "You do not own this banner")
  else (st, Outcome.err "This banner does not exist")

/-- `auction_banner` (lines 105-126 of the source).  The current block
number, read from the external system module, enters as a parameter. -/
def auction_banner (st : St) (sender : AccountId) (banner_id : Hash)
    (starting_price : Balance) (block_number : BlockNumber) : St × Outcome :=
  if st.bannersExists banner_id then
    match st.bannerOwner banner_id with
    | none => (st, Outcome.err "No owner for this banner")
    | some owner =>
      if owner = sender then
        let banner := st.banners banner_id
        if banner.can_bid then (st, Outcome.err "This banner has already been auctioned")
        else
          let banner1 :=
            { banner with
                current_price := starting_price
                can_bid := true
                current_bidder := sender
                bid_end_height := (block_number + AUCTION_DURATION) % U64_MOD }
          ({ st with
              banners := Function.update st.banners banner_id banner1
              events := st.events ++ [Event.StartAuction sender banner_id starting_price] },
            Outcome.ok)
      else (st, Outcome.err "You do not own this banner")
  else (st, Outcome.err "This banner does not exist")

/-- `Module::transfer_from` (lines 208-240 of the source).  The removal of
the vacated slot writes the default hash value, as `StorageMap::remove`
leaves a read of the removed key returning the default. -/
def transfer_from (st : St) (fromAcc toAcc : AccountId) (banner_id : Hash) :
    St × Outcome :=
  match st.bannerOwner banner_id with
  | none => (st, Outcome.err "No owner for this banner")
  | some owner =>
    if owner = fromAcc then
      let owned_banner_count_from := st.ownedBannersCount fromAcc
      let owned_banner_count_to := st.ownedBannersCount toAcc
      match checked_add owned_banner_count_to 1 with
      | none => (st, Outcome.err "Transfer causes overflow of to banner balance")
      | some new_owned_banner_count_to =>
        match checked_sub owned_banner_count_from 1 with
        | none => (st, Outcome.err "Transfer causes underflow of from banner balance")
        | some new_owned_banner_count_from =>
          let banner_index := st.ownedBannersIndex banner_id
          let st1 :=
            if banner_index ≠ new_owned_banner_count_from then
              let last_banner_id :=
                st.ownedBannersArray (fromAcc, new_owned_banner_count_from)
              { st with
                  ownedBannersArray :=
                    Function.update st.ownedBannersArray (fromAcc, banner_index)
                      last_banner_id
                  ownedBannersIndex :=
                    Function.update st.ownedBannersIndex last_banner_id banner_index }
            else st
          let st2 :=
            { st1 with
                bannerOwner := Function.update st1.bannerOwner banner_id (some toAcc)
                ownedBannersIndex :=
                  Function.update st1.ownedBannersIndex banner_id owned_banner_count_to }
          let st3 :=
            { st2 with
                ownedBannersArray :=
                  Function.update
                    (Function.update st2.ownedBannersArray
                      (fromAcc, new_owned_banner_count_from) 0)
                    (toAcc, owned_banner_count_to) banner_id }
          let st4 :=
            { st3 with
                ownedBannersCount :=
                  Function.update
                    (Function.update st3.ownedBannersCount fromAcc
                      new_owned_banner_count_from)
                    toAcc new_owned_banner_count_to }
          ({ st4 with
              events := st4.events ++ [Event.Transferred fromAcc toAcc banner_id] },
            Outcome.ok)
    else (st, Outcome.err "from account does not own this banner")

/-- `bid` (lines 128-173 of the source).  The two branches compare the
stored deadline with the current block number; the accepted-bid branch
performs the two ledger transfers in source order, and a failure of the
second transfer returns with the effect of the first one already applied,
as the writes of the first `transfer` are not undone by the later `?`
early return. -/
def bid (st : St) (sender : AccountId) (banner_id : Hash) (bid_price : Balance)
    (block_number : BlockNumber) : St × Outcome :=
  if st.bannersExists banner_id then
    match st.bannerOwner banner_id with
    | none => (st, Outcome.err "No owner for this banner")
    | some owner =>
      let banner := st.banners banner_id
      if banner.can_bid then
        if block_number < banner.bid_end_height then
          if owner = sender then (st, Outcome.err "You can not bid your own banner")
          else if bid_price ≤ banner.current_price then
            (st, Outcome.err "your bid price must be greater than current price")
          else
            match currency_transfer st sender banner.current_bidder banner.current_price with
            | (st1, Outcome.err e) => (st1, Outcome.err e)
            | (st1, Outcome.ok) =>
              match currency_transfer st1 sender owner (bid_price - banner.current_price) with
              | (st2, Outcome.err e) => (st2, Outcome.err e)
              | (st2, Outcome.ok) =>
                let banner2 :=
                  { banner with current_bidder := sender, current_price := bid_price }
                ({ st2 with
                    banners := Function.update st2.banners banner_id banner2
                    events := st2.events ++ [Event.Bid sender banner_id bid_price] },
                  Outcome.ok)
        else
          let final_price := banner.current_price
          let final_bidder := banner.current_bidder
          let banner2 :=
            { banner with
                can_bid := false
                bid_end_height := 0
                current_bidder := final_bidder
                current_price := 0 }
          let st1 := { st with banners := Function.update st.banners banner_id banner2 }
          if final_bidder = owner then
            ({ st1 with events := st1.events ++ [Event.Abort owner banner_id] },
              Outcome.ok)
          else
            match transfer_from st1 owner final_bidder banner_id with
            | (st2, Outcome.err e) => (st2, Outcome.err e)
            | (st2, Outcome.ok) =>
              ({ st2 with
                  events := st2.events ++ [Event.Deal final_bidder banner_id final_price] },
                Outcome.ok)
      else (st, Outcome.err "This banner can not be bid")
  else (st, Outcome.err "This banner does not exist")

/-! ## Characterization lemmas for the operations -/

/-- The state written by a successful `mint`, as a flat record. -/
def mintPost (st : St) (toAcc : AccountId) (banner_id : Hash) (new_banner : Banner) : St :=
  { st with
      banners := Function.update st.banners banner_id new_banner
      bannersExists := Function.update st.bannersExists banner_id true
      bannerOwner := Function.update st.bannerOwner banner_id (some toAcc)
      allBannersArray :=
        Function.update st.allBannersArray st.allBannersCount banner_id
      allBannersCount := st.allBannersCount + 1
      allBannersIndex :=
        Function.update st.allBannersIndex banner_id st.allBannersCount
      ownedBannersArray :=
        Function.update st.ownedBannersArray (toAcc, st.ownedBannersCount toAcc) banner_id
      ownedBannersCount :=
        Function.update st.ownedBannersCount toAcc (st.ownedBannersCount toAcc + 1)
      ownedBannersIndex :=
        Function.update st.ownedBannersIndex banner_id (st.ownedBannersCount toAcc)
      events := st.events ++ [Event.CreateBanner toAcc banner_id] }

theorem mint_eq_of_ok {st : St} {toAcc : AccountId} {banner_id : Hash} {nb : Banner}
    (hnone : st.bannerOwner banner_id = none)
    (hoc : st.ownedBannersCount toAcc + 1 < U64_MOD)
    (hac : st.allBannersCount + 1 < U64_MOD) :
    mint st toAcc banner_id nb = (mintPost st toAcc banner_id nb, Outcome.ok) := by
  unfold mint checked_add
  rw [hnone]
  simp [if_pos hoc, if_pos hac, mintPost]

/-- The state written by a successful `transfer_from`, as a flat record. -/
def transferPost (st : St) (fromAcc toAcc : AccountId) (banner_id : Hash) : St :=
  let nf := st.ownedBannersCount fromAcc - 1
  let ct := st.ownedBannersCount toAcc
  let bi := st.ownedBannersIndex banner_id
  let last := st.ownedBannersArray (fromAcc, nf)
  let arr0 :=
    if bi ≠ nf then Function.update st.ownedBannersArray (fromAcc, bi) last
    else st.ownedBannersArray
  let idx0 :=
    if bi ≠ nf then Function.update st.ownedBannersIndex last bi
    else st.ownedBannersIndex
  { st with
      bannerOwner := Function.update st.bannerOwner banner_id (some toAcc)
      ownedBannersIndex := Function.update idx0 banner_id ct
      ownedBannersArray :=
        Function.update (Function.update arr0 (fromAcc, nf) 0) (toAcc, ct) banner_id
      ownedBannersCount :=
        Function.update (Function.update st.ownedBannersCount fromAcc nf) toAcc (ct + 1)
      events := st.events ++ [Event.Transferred fromAcc toAcc banner_id] }

theorem transfer_from_eq_of_ok {st : St} {fromAcc toAcc : AccountId} {banner_id : Hash}
    (howner : st.bannerOwner banner_id = some fromAcc)
    (hto : st.ownedBannersCount toAcc + 1 < U64_MOD)
    (hfrom : 1 ≤ st.ownedBannersCount fromAcc) :
    transfer_from st fromAcc toAcc banner_id =
      (transferPost st fromAcc toAcc banner_id, Outcome.ok) := by
  unfold transfer_from checked_add checked_sub transferPost
  rw [howner]
  simp only [if_pos rfl, if_pos hto, if_pos hfrom]
  by_cases hsw : st.ownedBannersIndex banner_id ≠ st.ownedBannersCount fromAcc - 1
  · simp only [if_pos hsw, if_true]
  · simp only [if_neg hsw, if_true]

theorem currency_transfer_ok {st : St} {s d : AccountId} {a : Balance}
    (hle : a ≤ st.balances s) :
    currency_transfer st s d a =
      ({ st with balances := transfer_balances st.balances s d a }, Outcome.ok) := by
  unfold currency_transfer
  rw [if_pos hle]

theorem currency_transfer_err {st : St} {s d : AccountId} {a : Balance}
    (hlt : st.balances s < a) :
    currency_transfer st s d a = (st, Outcome.err "balance too low to send value") := by
  unfold currency_transfer
  rw [if_neg (Nat.not_le.mpr hlt)]

/-! ## The transition system: one step per public call of the module,
plus arbitrary activity of the external balance ledger between calls. -/

/-- One public call of the module (any arguments, any outcome; the written
state is kept whether or not the call succeeded, as the framework applies
storage writes immediately), or an external change of the balance ledger. -/
inductive Step : St → St → Prop where
  | create (st : St) (sender : AccountId) (random_hash : Hash)
      (name url desc : List Nat) :
      Step st (create_banner st sender random_hash name url desc).1
  | set_image (st : St) (sender : AccountId) (banner_id : Hash) (new_url : List Nat) :
      Step st (set_image_url st sender banner_id new_url).1
  | auction (st : St) (sender : AccountId) (banner_id : Hash) (p : Balance)
      (bn : BlockNumber) :
      Step st (auction_banner st sender banner_id p bn).1
  | bid_call (st : St) (sender : AccountId) (banner_id : Hash) (p : Balance)
      (bn : BlockNumber) :
      Step st (bid st sender banner_id p bn).1
  | ledger (st : St) (b : AccountId → Balance) :
      Step st { st with balances := b }

/-- States reachable from the empty store by module calls. -/
inductive Reachable : St → Prop where
  | empty : Reachable emptySt
  | step {st st' : St} : Reachable st → Step st st' → Reachable st'

/-! ## The registry invariant -/

/-- Global enumeration index consistency: the reverse index of every owned
banner points back at it within range, and every in-range slot of the
global array holds an owned banner whose reverse index is that slot. -/
def GlobalInv (st : St) : Prop :=
  (∀ h : Hash, (st.bannerOwner h).isSome →
      st.allBannersIndex h < st.allBannersCount ∧
      st.allBannersArray (st.allBannersIndex h) = h) ∧
  (∀ i : Nat, i < st.allBannersCount →
      (st.bannerOwner (st.allBannersArray i)).isSome ∧
      st.allBannersIndex (st.allBannersArray i) = i)

/-- Per-owner enumeration index consistency, same shape as `GlobalInv`
scoped to the owner of each banner. -/
def OwnedInv (st : St) : Prop :=
  (∀ (h : Hash) (a : AccountId), st.bannerOwner h = some a →
      st.ownedBannersIndex h < st.ownedBannersCount a ∧
      st.ownedBannersArray (a, st.ownedBannersIndex h) = h) ∧
  (∀ (a : AccountId) (j : Nat), j < st.ownedBannersCount a →
      st.bannerOwner (st.ownedBannersArray (a, j)) = some a ∧
      st.ownedBannersIndex (st.ownedBannersArray (a, j)) = j)

/-- Conservation: over any finite set of accounts outside of which all
per-owner counts vanish, the per-owner counts sum to the global count. -/
def ConsInv (st : St) : Prop :=
  ∀ S : Finset AccountId, (∀ a : AccountId, a ∉ S → st.ownedBannersCount a = 0) →
    (∑ a ∈ S, st.ownedBannersCount a) = st.allBannersCount

def Inv (st : St) : Prop := GlobalInv st ∧ OwnedInv st ∧ ConsInv st

theorem inv_emptySt : Inv emptySt := by
  refine ⟨⟨?_, ?_⟩, ⟨?_, ?_⟩, ?_⟩ <;> simp [emptySt, ConsInv]

/-! ## Success and failure analysis of `mint` and `transfer_from` -/

theorem mint_err_of_dup {st : St} {toAcc : AccountId} {banner_id : Hash} {nb : Banner}
    (hdup : (st.bannerOwner banner_id).isSome) :
    mint st toAcc banner_id nb = (st, Outcome.err "banner already exists") := by
  unfold mint
  rw [if_pos hdup]

theorem mint_err_of_owned_overflow {st : St} {toAcc : AccountId} {banner_id : Hash}
    {nb : Banner} (hnone : st.bannerOwner banner_id = none)
    (hov : ¬ st.ownedBannersCount toAcc + 1 < U64_MOD) :
    mint st toAcc banner_id nb =
      (st, Outcome.err "Overflow adding a new banner to account balance") := by
  unfold mint checked_add
  rw [hnone]
  simp only [Option.isSome_none, Bool.false_eq_true, if_false, if_neg hov]

theorem mint_err_of_all_overflow {st : St} {toAcc : AccountId} {banner_id : Hash}
    {nb : Banner} (hnone : st.bannerOwner banner_id = none)
    (hoc : st.ownedBannersCount toAcc + 1 < U64_MOD)
    (hov : ¬ st.allBannersCount + 1 < U64_MOD) :
    mint st toAcc banner_id nb =
      (st, Outcome.err "Overflow adding a new banner to total supply") := by
  unfold mint checked_add
  rw [hnone]
  simp only [Option.isSome_none, Bool.false_eq_true, if_false, if_pos hoc, if_neg hov]

theorem mint_ok_iff {st : St} {toAcc : AccountId} {banner_id : Hash} {nb : Banner} :
    (mint st toAcc banner_id nb).2 = Outcome.ok ↔
      st.bannerOwner banner_id = none ∧
      st.ownedBannersCount toAcc + 1 < U64_MOD ∧
      st.allBannersCount + 1 < U64_MOD := by
  constructor
  · intro hok
    by_cases h1 : st.bannerOwner banner_id = none
    · by_cases h2 : st.ownedBannersCount toAcc + 1 < U64_MOD
      · by_cases h3 : st.allBannersCount + 1 < U64_MOD
        · exact ⟨h1, h2, h3⟩
        · rw [mint_err_of_all_overflow h1 h2 h3] at hok
          exact absurd hok (by simp)
      · rw [mint_err_of_owned_overflow h1 h2] at hok
        exact absurd hok (by simp)
    · rw [mint_err_of_dup (Option.ne_none_iff_isSome.mp h1)] at hok
      exact absurd hok (by simp)
  · rintro ⟨h1, h2, h3⟩
    rw [mint_eq_of_ok h1 h2 h3]

theorem mint_fst_of_not_ok {st : St} {toAcc : AccountId} {banner_id : Hash} {nb : Banner}
    (hno : (mint st toAcc banner_id nb).2 ≠ Outcome.ok) :
    (mint st toAcc banner_id nb).1 = st := by
  by_cases h1 : st.bannerOwner banner_id = none
  · by_cases h2 : st.ownedBannersCount toAcc + 1 < U64_MOD
    · by_cases h3 : st.allBannersCount + 1 < U64_MOD
      · exact absurd (by rw [mint_eq_of_ok h1 h2 h3]) hno
      · rw [mint_err_of_all_overflow h1 h2 h3]
    · rw [mint_err_of_owned_overflow h1 h2]
  · rw [mint_err_of_dup (Option.ne_none_iff_isSome.mp h1)]

theorem transfer_from_err_of_none {st : St} {fromAcc toAcc : AccountId} {banner_id : Hash}
    (hnone : st.bannerOwner banner_id = none) :
    transfer_from st fromAcc toAcc banner_id =
      (st, Outcome.err "No owner for this banner") := by
  unfold transfer_from
  rw [hnone]

theorem transfer_from_err_of_not_owner {st : St} {fromAcc toAcc owner : AccountId}
    {banner_id : Hash} (howner : st.bannerOwner banner_id = some owner)
    (hne : owner ≠ fromAcc) :
    transfer_from st fromAcc toAcc banner_id =
      (st, Outcome.err "from account does not own this banner") := by
  unfold transfer_from
  rw [howner]
  simp only [if_neg hne]

theorem transfer_from_err_of_to_overflow {st : St} {fromAcc toAcc : AccountId}
    {banner_id : Hash} (howner : st.bannerOwner banner_id = some fromAcc)
    (hov : ¬ st.ownedBannersCount toAcc + 1 < U64_MOD) :
    transfer_from st fromAcc toAcc banner_id =
      (st, Outcome.err "Transfer causes overflow of to banner balance") := by
  unfold transfer_from checked_add
  rw [howner]
  simp only [if_pos rfl, if_neg hov, if_true]

theorem transfer_from_err_of_from_underflow {st : St} {fromAcc toAcc : AccountId}
    {banner_id : Hash} (howner : st.bannerOwner banner_id = some fromAcc)
    (hoc : st.ownedBannersCount toAcc + 1 < U64_MOD)
    (hun : ¬ 1 ≤ st.ownedBannersCount fromAcc) :
    transfer_from st fromAcc toAcc banner_id =
      (st, Outcome.err "Transfer causes underflow of from banner balance") := by
  unfold transfer_from checked_add checked_sub
  rw [howner]
  simp only [if_pos rfl, if_pos hoc, if_neg hun, if_true]

theorem transfer_from_ok_iff {st : St} {fromAcc toAcc : AccountId} {banner_id : Hash} :
    (transfer_from st fromAcc toAcc banner_id).2 = Outcome.ok ↔
      st.bannerOwner banner_id = some fromAcc ∧
      st.ownedBannersCount toAcc + 1 < U64_MOD ∧
      1 ≤ st.ownedBannersCount fromAcc := by
  constructor
  · intro hok
    rcases howner : st.bannerOwner banner_id with _ | owner
    · rw [transfer_from_err_of_none howner] at hok
      exact absurd hok (by simp)
    · by_cases h1 : owner = fromAcc
      · rw [h1] at howner
        by_cases h2 : st.ownedBannersCount toAcc + 1 < U64_MOD
        · by_cases h3 : 1 ≤ st.ownedBannersCount fromAcc
          · exact ⟨by rw [h1], h2, h3⟩
          · rw [transfer_from_err_of_from_underflow howner h2 h3] at hok
            exact absurd hok (by simp)
        · rw [transfer_from_err_of_to_overflow howner h2] at hok
          exact absurd hok (by simp)
      · rw [transfer_from_err_of_not_owner howner h1] at hok
        exact absurd hok (by simp)
  · rintro ⟨h1, h2, h3⟩
    rw [transfer_from_eq_of_ok h1 h2 h3]

theorem transfer_from_fst_of_not_ok {st : St} {fromAcc toAcc : AccountId} {banner_id : Hash}
    (hno : (transfer_from st fromAcc toAcc banner_id).2 ≠ Outcome.ok) :
    (transfer_from st fromAcc toAcc banner_id).1 = st := by
  rcases howner : st.bannerOwner banner_id with _ | owner
  · rw [transfer_from_err_of_none howner]
  · by_cases h1 : owner = fromAcc
    · rw [h1] at howner
      by_cases h2 : st.ownedBannersCount toAcc + 1 < U64_MOD
      · by_cases h3 : 1 ≤ st.ownedBannersCount fromAcc
        · exact absurd (by rw [transfer_from_eq_of_ok howner h2 h3]) hno
        · rw [transfer_from_err_of_from_underflow howner h2 h3]
      · rw [transfer_from_err_of_to_overflow howner h2]
    · rw [transfer_from_err_of_not_owner howner h1]

/-! ## Pointwise description of the state after a successful transfer -/

theorem pair_ne_fst {x1 x2 : AccountId} {y1 y2 : Nat} (h : x1 ≠ x2) :
    ((x1, y1) : AccountId × Nat) ≠ (x2, y2) :=
  fun hc => h (congrArg Prod.fst hc)

theorem pair_ne_snd {x1 x2 : AccountId} {y1 y2 : Nat} (h : y1 ≠ y2) :
    ((x1, y1) : AccountId × Nat) ≠ (x2, y2) :=
  fun hc => h (congrArg Prod.snd hc)

theorem transferPost_banners (st : St) (fromAcc toAcc : AccountId) (banner_id : Hash) :
    (transferPost st fromAcc toAcc banner_id).banners = st.banners := rfl

theorem transferPost_bannersExists (st : St) (fromAcc toAcc : AccountId) (banner_id : Hash) :
    (transferPost st fromAcc toAcc banner_id).bannersExists = st.bannersExists := rfl

theorem transferPost_allArray (st : St) (fromAcc toAcc : AccountId) (banner_id : Hash) :
    (transferPost st fromAcc toAcc banner_id).allBannersArray = st.allBannersArray := rfl

theorem transferPost_allCount (st : St) (fromAcc toAcc : AccountId) (banner_id : Hash) :
    (transferPost st fromAcc toAcc banner_id).allBannersCount = st.allBannersCount := rfl

theorem transferPost_allIndex (st : St) (fromAcc toAcc : AccountId) (banner_id : Hash) :
    (transferPost st fromAcc toAcc banner_id).allBannersIndex = st.allBannersIndex := rfl

theorem transferPost_nonce (st : St) (fromAcc toAcc : AccountId) (banner_id : Hash) :
    (transferPost st fromAcc toAcc banner_id).nonce = st.nonce := rfl

theorem transferPost_balances (st : St) (fromAcc toAcc : AccountId) (banner_id : Hash) :
    (transferPost st fromAcc toAcc banner_id).balances = st.balances := rfl

theorem transferPost_events (st : St) (fromAcc toAcc : AccountId) (banner_id : Hash) :
    (transferPost st fromAcc toAcc banner_id).events =
      st.events ++ [Event.Transferred fromAcc toAcc banner_id] := rfl

theorem transferPost_owner (st : St) (fromAcc toAcc : AccountId) (banner_id : Hash)
    (x : Hash) :
    (transferPost st fromAcc toAcc banner_id).bannerOwner x =
      if x = banner_id then some toAcc else st.bannerOwner x := by
  simp only [transferPost, Function.update_apply]

theorem transferPost_count (st : St) (fromAcc toAcc : AccountId) (banner_id : Hash)
    (a : AccountId) :
    (transferPost st fromAcc toAcc banner_id).ownedBannersCount a =
      if a = toAcc then st.ownedBannersCount toAcc + 1
      else if a = fromAcc then st.ownedBannersCount fromAcc - 1
      else st.ownedBannersCount a := by
  simp only [transferPost, Function.update_apply]

theorem transferPost_idx (st : St) (fromAcc toAcc : AccountId) (banner_id : Hash)
    (x : Hash) :
    (transferPost st fromAcc toAcc banner_id).ownedBannersIndex x =
      if x = banner_id then st.ownedBannersCount toAcc
      else if st.ownedBannersIndex banner_id ≠ st.ownedBannersCount fromAcc - 1 ∧
          x = st.ownedBannersArray (fromAcc, st.ownedBannersCount fromAcc - 1) then
        st.ownedBannersIndex banner_id
      else st.ownedBannersIndex x := by
  by_cases hsw : st.ownedBannersIndex banner_id ≠ st.ownedBannersCount fromAcc - 1
  · simp only [transferPost, if_pos hsw, Function.update_apply, ne_eq, hsw,
      not_false_eq_true, true_and, if_true]
  · simp only [transferPost, if_neg hsw, Function.update_apply, hsw, false_and, if_false]

theorem transferPost_arr (st : St) (fromAcc toAcc : AccountId) (banner_id : Hash)
    (p : AccountId × Nat) :
    (transferPost st fromAcc toAcc banner_id).ownedBannersArray p =
      if p = (toAcc, st.ownedBannersCount toAcc) then banner_id
      else if p = (fromAcc, st.ownedBannersCount fromAcc - 1) then 0
      else if st.ownedBannersIndex banner_id ≠ st.ownedBannersCount fromAcc - 1 ∧
          p = (fromAcc, st.ownedBannersIndex banner_id) then
        st.ownedBannersArray (fromAcc, st.ownedBannersCount fromAcc - 1)
      else st.ownedBannersArray p := by
  by_cases hsw : st.ownedBannersIndex banner_id ≠ st.ownedBannersCount fromAcc - 1
  · simp only [transferPost, if_pos hsw, Function.update_apply, ne_eq, hsw,
      not_false_eq_true, true_and, if_true]
  · simp only [transferPost, if_neg hsw, Function.update_apply, hsw, false_and, if_false]

/-! ## Preservation of the invariant -/

theorem inv_mintPost {st : St} {toAcc : AccountId} {banner_id : Hash} {nb : Banner}
    (hinv : Inv st) (hnone : st.bannerOwner banner_id = none) :
    Inv (mintPost st toAcc banner_id nb) := by
  obtain ⟨⟨hg1, hg2⟩, ⟨ho1, ho2⟩, hcons⟩ := hinv
  refine ⟨⟨?_, ?_⟩, ⟨?_, ?_⟩, ?_⟩
  · intro x hx
    simp only [mintPost, Function.update_apply] at hx ⊢
    by_cases hxb : x = banner_id
    · subst hxb
      simp only [eq_self_iff_true, if_true]
      exact ⟨Nat.lt_succ_self _, trivial⟩
    · simp only [hxb, if_false] at hx ⊢
      obtain ⟨hlt, harr⟩ := hg1 x hx
      have hne : ¬ st.allBannersIndex x = st.allBannersCount := Nat.ne_of_lt hlt
      simp only [hne, if_false]
      exact ⟨Nat.lt_succ_of_lt hlt, harr⟩
  · intro i hi
    simp only [mintPost, Function.update_apply] at hi ⊢
    rcases Nat.lt_succ_iff_lt_or_eq.mp hi with hlt | heq
    · have hine : ¬ i = st.allBannersCount := Nat.ne_of_lt hlt
      simp only [hine, if_false]
      obtain ⟨hs, hidx⟩ := hg2 i hlt
      have hxb : ¬ st.allBannersArray i = banner_id := by
        intro hc
        rw [hc, hnone] at hs
        exact Bool.noConfusion hs
      simp only [hxb, if_false]
      exact ⟨hs, hidx⟩
    · subst heq
      simp only [eq_self_iff_true, if_true]
      exact ⟨rfl, trivial⟩
  · intro x a hx
    simp only [mintPost, Function.update_apply] at hx ⊢
    by_cases hxb : x = banner_id
    · subst hxb
      simp only [eq_self_iff_true, if_true] at hx
      injection hx with ha
      subst ha
      simp only [eq_self_iff_true, if_true, Prod.mk.injEq, and_self]
      exact ⟨Nat.lt_succ_self _, trivial⟩
    · simp only [hxb, if_false] at hx ⊢
      obtain ⟨hlt, harr⟩ := ho1 x a hx
      by_cases hat : a = toAcc
      · rw [hat] at hlt harr ⊢
        have hidxne : ¬ st.ownedBannersIndex x = st.ownedBannersCount toAcc :=
          Nat.ne_of_lt hlt
        simp only [eq_self_iff_true, if_true, Prod.mk.injEq, hidxne, and_false,
          true_and, if_false]
        exact ⟨Nat.lt_succ_of_lt hlt, harr⟩
      · simp only [hat, if_false, Prod.mk.injEq, false_and]
        exact ⟨hlt, harr⟩
  · intro a j hj
    simp only [mintPost, Function.update_apply] at hj ⊢
    by_cases hat : a = toAcc
    · rw [hat] at hj ⊢
      simp only [eq_self_iff_true, if_true] at hj
      rcases Nat.lt_succ_iff_lt_or_eq.mp hj with hlt | heq
      · have hjne : ¬ j = st.ownedBannersCount toAcc := Nat.ne_of_lt hlt
        simp only [Prod.mk.injEq, eq_self_iff_true, true_and, hjne, if_false]
        obtain ⟨hown, hidx⟩ := ho2 toAcc j hlt
        have hyb : ¬ st.ownedBannersArray (toAcc, j) = banner_id := by
          intro hc
          rw [hc, hnone] at hown
          exact Option.noConfusion hown
        simp only [hyb, if_false]
        exact ⟨hown, hidx⟩
      · subst heq
        simp only [Prod.mk.injEq, eq_self_iff_true, and_self, if_true]
    · simp only [hat, if_false] at hj ⊢
      obtain ⟨hown, hidx⟩ := ho2 a j hj
      simp only [Prod.mk.injEq, hat, false_and, if_false]
      have hyb : ¬ st.ownedBannersArray (a, j) = banner_id := by
        intro hc
        rw [hc, hnone] at hown
        exact Option.noConfusion hown
      simp only [hyb, if_false]
      exact ⟨hown, hidx⟩
  · intro S hS
    simp only [mintPost] at hS ⊢
    have htoS : toAcc ∈ S := by
      by_contra hc
      have h0 := hS toAcc hc
      rw [Function.update_same] at h0
      omega
    have hold : ∀ a ∉ S, st.ownedBannersCount a = 0 := by
      intro a ha
      have hne : a ≠ toAcc := by
        intro hc
        rw [hc] at ha
        exact ha htoS
      have h0 := hS a ha
      rwa [Function.update_noteq hne] at h0
    have hsum := hcons S hold
    rw [Finset.sum_update_of_mem htoS]
    rw [← Finset.add_sum_erase S _ htoS, Finset.erase_eq] at hsum
    omega

theorem inv_transferPost {st : St} {fromAcc toAcc : AccountId} {banner_id : Hash}
    (hinv : Inv st) (hft : fromAcc ≠ toAcc)
    (howner : st.bannerOwner banner_id = some fromAcc) :
    Inv (transferPost st fromAcc toAcc banner_id) := by
  obtain ⟨⟨hg1, hg2⟩, ⟨ho1, ho2⟩, hcons⟩ := hinv
  obtain ⟨hbi_lt, hbi_arr⟩ := ho1 banner_id fromAcc howner
  have hnf_lt : st.ownedBannersCount fromAcc - 1 < st.ownedBannersCount fromAcc := by
    omega
  obtain ⟨hlast_own, hlast_idx⟩ :=
    ho2 fromAcc (st.ownedBannersCount fromAcc - 1) hnf_lt
  have htf : toAcc ≠ fromAcc := Ne.symm hft
  refine ⟨⟨?_, ?_⟩, ⟨?_, ?_⟩, ?_⟩
  · intro x hx
    rw [transferPost_owner] at hx
    rw [transferPost_allIndex, transferPost_allCount, transferPost_allArray]
    by_cases hxb : x = banner_id
    · subst x
      exact hg1 banner_id (by rw [howner]; rfl)
    · rw [if_neg hxb] at hx
      exact hg1 x hx
  · intro i hi
    rw [transferPost_allCount] at hi
    rw [transferPost_allArray, transferPost_allIndex, transferPost_owner]
    obtain ⟨hs, hidx⟩ := hg2 i hi
    by_cases hxb : st.allBannersArray i = banner_id
    · rw [hxb, if_pos rfl]
      refine ⟨rfl, ?_⟩
      rw [← hxb]
      exact hidx
    · rw [if_neg hxb]
      exact ⟨hs, hidx⟩
  · intro x a hx
    rw [transferPost_owner] at hx
    rw [transferPost_count, transferPost_idx, transferPost_arr]
    by_cases hxb : x = banner_id
    · subst x
      rw [if_pos rfl] at hx
      injection hx with ha
      subst a
      simp only [eq_self_iff_true, if_true, Prod.mk.injEq, and_self]
      exact ⟨Nat.lt_succ_self _, trivial⟩
    · rw [if_neg hxb] at hx
      obtain ⟨hxlt, hxarr⟩ := ho1 x a hx
      rw [if_neg hxb]
      by_cases hal : a = fromAcc
      · subst a
        rw [if_neg hft, if_pos rfl]
        by_cases hsw : st.ownedBannersIndex banner_id = st.ownedBannersCount fromAcc - 1
        · have hcond : ¬ (st.ownedBannersIndex banner_id ≠ st.ownedBannersCount fromAcc - 1 ∧
              x = st.ownedBannersArray (fromAcc, st.ownedBannersCount fromAcc - 1)) := by
            intro hc
            exact hc.1 hsw
          rw [if_neg hcond]
          have hxne_nf : st.ownedBannersIndex x ≠ st.ownedBannersCount fromAcc - 1 := by
            intro hc
            rw [hc, ← hsw, hbi_arr] at hxarr
            exact hxb hxarr.symm
          refine ⟨by omega, ?_⟩
          have hcond2 : ¬ (st.ownedBannersIndex banner_id ≠ st.ownedBannersCount fromAcc - 1 ∧
              ((fromAcc : AccountId), st.ownedBannersIndex x) =
                (fromAcc, st.ownedBannersIndex banner_id)) := by
            intro hc
            exact hc.1 hsw
          rw [if_neg (pair_ne_fst hft), if_neg (pair_ne_snd hxne_nf), if_neg hcond2]
          exact hxarr
        · by_cases hxl : x = st.ownedBannersArray (fromAcc, st.ownedBannersCount fromAcc - 1)
          · rw [if_pos ⟨hsw, hxl⟩]
            refine ⟨by omega, ?_⟩
            have hcond3 : st.ownedBannersIndex banner_id ≠ st.ownedBannersCount fromAcc - 1 ∧
                ((fromAcc : AccountId), st.ownedBannersIndex banner_id) =
                  (fromAcc, st.ownedBannersIndex banner_id) := ⟨hsw, rfl⟩
            rw [if_neg (pair_ne_fst hft), if_neg (pair_ne_snd hsw), if_pos hcond3]
            exact hxl.symm
          · have hcond : ¬ (st.ownedBannersIndex banner_id ≠ st.ownedBannersCount fromAcc - 1 ∧
                x = st.ownedBannersArray (fromAcc, st.ownedBannersCount fromAcc - 1)) := by
              intro hc
              exact hxl hc.2
            rw [if_neg hcond]
            have hxne_nf : st.ownedBannersIndex x ≠ st.ownedBannersCount fromAcc - 1 := by
              intro hc
              rw [hc] at hxarr
              exact hxl hxarr.symm
            refine ⟨by omega, ?_⟩
            have hxne_bi : st.ownedBannersIndex x ≠ st.ownedBannersIndex banner_id := by
              intro hc
              rw [hc, hbi_arr] at hxarr
              exact hxb hxarr.symm
            have hcond2 : ¬ (st.ownedBannersIndex banner_id ≠ st.ownedBannersCount fromAcc - 1 ∧
                ((fromAcc : AccountId), st.ownedBannersIndex x) =
                  (fromAcc, st.ownedBannersIndex banner_id)) := by
              intro hc
              exact hxne_bi (congrArg Prod.snd hc.2)
            rw [if_neg (pair_ne_fst hft), if_neg (pair_ne_snd hxne_nf), if_neg hcond2]
            exact hxarr
      · by_cases hat : a = toAcc
        · subst a
          rw [if_pos rfl]
          have hxl : x ≠ st.ownedBannersArray (fromAcc, st.ownedBannersCount fromAcc - 1) := by
            intro hc
            rw [← hc, hx] at hlast_own
            injection hlast_own with h2
            exact htf h2
          have hcond : ¬ (st.ownedBannersIndex banner_id ≠ st.ownedBannersCount fromAcc - 1 ∧
              x = st.ownedBannersArray (fromAcc, st.ownedBannersCount fromAcc - 1)) := by
            intro hc
            exact hxl hc.2
          rw [if_neg hcond]
          refine ⟨Nat.lt_succ_of_lt hxlt, ?_⟩
          have hcond2 : ¬ (st.ownedBannersIndex banner_id ≠ st.ownedBannersCount fromAcc - 1 ∧
              ((toAcc : AccountId), st.ownedBannersIndex x) =
                (fromAcc, st.ownedBannersIndex banner_id)) := by
            intro hc
            exact htf (congrArg Prod.fst hc.2)
          rw [if_neg (pair_ne_snd (Nat.ne_of_lt hxlt)), if_neg (pair_ne_fst htf), if_neg hcond2]
          exact hxarr
        · rw [if_neg hat, if_neg hal]
          have hxl : x ≠ st.ownedBannersArray (fromAcc, st.ownedBannersCount fromAcc - 1) := by
            intro hc
            rw [← hc, hx] at hlast_own
            injection hlast_own with h2
            exact hal h2
          have hcond : ¬ (st.ownedBannersIndex banner_id ≠ st.ownedBannersCount fromAcc - 1 ∧
              x = st.ownedBannersArray (fromAcc, st.ownedBannersCount fromAcc - 1)) := by
            intro hc
            exact hxl hc.2
          rw [if_neg hcond]
          refine ⟨hxlt, ?_⟩
          have hcond2 : ¬ (st.ownedBannersIndex banner_id ≠ st.ownedBannersCount fromAcc - 1 ∧
              ((a : AccountId), st.ownedBannersIndex x) =
                (fromAcc, st.ownedBannersIndex banner_id)) := by
            intro hc
            exact hal (congrArg Prod.fst hc.2)
          rw [if_neg (pair_ne_fst hat), if_neg (pair_ne_fst hal), if_neg hcond2]
          exact hxarr
  · intro a j hj
    rw [transferPost_count] at hj
    rw [transferPost_arr, transferPost_owner, transferPost_idx]
    by_cases hat : a = toAcc
    · subst a
      rw [if_pos rfl] at hj
      rcases Nat.lt_succ_iff_lt_or_eq.mp hj with hlt | heq
      · rw [if_neg (pair_ne_snd (Nat.ne_of_lt hlt)), if_neg (pair_ne_fst htf)]
        have hcond : ¬ (st.ownedBannersIndex banner_id ≠ st.ownedBannersCount fromAcc - 1 ∧
            ((toAcc : AccountId), j) = (fromAcc, st.ownedBannersIndex banner_id)) := by
          intro hc
          exact htf (congrArg Prod.fst hc.2)
        rw [if_neg hcond]
        obtain ⟨hown, hidx⟩ := ho2 toAcc j hlt
        have hyb : st.ownedBannersArray (toAcc, j) ≠ banner_id := by
          intro hc
          rw [hc, howner] at hown
          injection hown with h2
          exact hft h2
        have hyl : st.ownedBannersArray (toAcc, j) ≠
            st.ownedBannersArray (fromAcc, st.ownedBannersCount fromAcc - 1) := by
          intro hc
          rw [hc, hlast_own] at hown
          injection hown with h2
          exact hft h2
        have hcond2 : ¬ (st.ownedBannersIndex banner_id ≠ st.ownedBannersCount fromAcc - 1 ∧
            st.ownedBannersArray (toAcc, j) =
              st.ownedBannersArray (fromAcc, st.ownedBannersCount fromAcc - 1)) := by
          intro hc
          exact hyl hc.2
        rw [if_neg hyb, if_neg hyb, if_neg hcond2]
        exact ⟨hown, hidx⟩
      · subst heq
        rw [if_pos rfl, if_pos rfl, if_pos rfl]
        exact ⟨rfl, rfl⟩
    · by_cases hal : a = fromAcc
      · subst a
        rw [if_neg hft, if_pos rfl] at hj
        rw [if_neg (pair_ne_fst hft), if_neg (pair_ne_snd (Nat.ne_of_lt hj))]
        have hjlt : j < st.ownedBannersCount fromAcc := by omega
        by_cases hsw : st.ownedBannersIndex banner_id = st.ownedBannersCount fromAcc - 1
        · have hcond : ¬ (st.ownedBannersIndex banner_id ≠ st.ownedBannersCount fromAcc - 1 ∧
              ((fromAcc : AccountId), j) = (fromAcc, st.ownedBannersIndex banner_id)) := by
            intro hc
            exact hc.1 hsw
          rw [if_neg hcond]
          obtain ⟨hown, hidx⟩ := ho2 fromAcc j hjlt
          have hyb : st.ownedBannersArray (fromAcc, j) ≠ banner_id := by
            intro hc
            rw [hc] at hidx
            omega
          have hcond2 : ¬ (st.ownedBannersIndex banner_id ≠ st.ownedBannersCount fromAcc - 1 ∧
              st.ownedBannersArray (fromAcc, j) =
                st.ownedBannersArray (fromAcc, st.ownedBannersCount fromAcc - 1)) := by
            intro hc
            exact hc.1 hsw
          rw [if_neg hyb, if_neg hyb, if_neg hcond2]
          exact ⟨hown, hidx⟩
        · by_cases hjbi : j = st.ownedBannersIndex banner_id
          · have hcond : st.ownedBannersIndex banner_id ≠ st.ownedBannersCount fromAcc - 1 ∧
                ((fromAcc : AccountId), j) = (fromAcc, st.ownedBannersIndex banner_id) := by
              refine ⟨hsw, ?_⟩
              rw [hjbi]
            rw [if_pos hcond]
            have hlast_ne_bid : st.ownedBannersArray
                (fromAcc, st.ownedBannersCount fromAcc - 1) ≠ banner_id := by
              intro hc
              rw [hc] at hlast_idx
              exact hsw hlast_idx
            have hcond2 : st.ownedBannersIndex banner_id ≠ st.ownedBannersCount fromAcc - 1 ∧
                st.ownedBannersArray (fromAcc, st.ownedBannersCount fromAcc - 1) =
                  st.ownedBannersArray (fromAcc, st.ownedBannersCount fromAcc - 1) := ⟨hsw, rfl⟩
            rw [if_neg hlast_ne_bid, if_neg hlast_ne_bid, if_pos hcond2]
            exact ⟨hlast_own, hjbi.symm⟩
          · have hcond : ¬ (st.ownedBannersIndex banner_id ≠ st.ownedBannersCount fromAcc - 1 ∧
                ((fromAcc : AccountId), j) = (fromAcc, st.ownedBannersIndex banner_id)) := by
              intro hc
              exact hjbi (congrArg Prod.snd hc.2)
            rw [if_neg hcond]
            obtain ⟨hown, hidx⟩ := ho2 fromAcc j hjlt
            have hyb : st.ownedBannersArray (fromAcc, j) ≠ banner_id := by
              intro hc
              rw [hc] at hidx
              exact hjbi hidx.symm
            have hyl : st.ownedBannersArray (fromAcc, j) ≠
                st.ownedBannersArray (fromAcc, st.ownedBannersCount fromAcc - 1) := by
              intro hc
              rw [hc, hlast_idx] at hidx
              omega
            have hcond2 : ¬ (st.ownedBannersIndex banner_id ≠ st.ownedBannersCount fromAcc - 1 ∧
                st.ownedBannersArray (fromAcc, j) =
                  st.ownedBannersArray (fromAcc, st.ownedBannersCount fromAcc - 1)) := by
              intro hc
              exact hyl hc.2
            rw [if_neg hyb, if_neg hyb, if_neg hcond2]
            exact ⟨hown, hidx⟩
      · rw [if_neg hat, if_neg hal] at hj
        rw [if_neg (pair_ne_fst hat), if_neg (pair_ne_fst hal)]
        have hcond : ¬ (st.ownedBannersIndex banner_id ≠ st.ownedBannersCount fromAcc - 1 ∧
            ((a : AccountId), j) = (fromAcc, st.ownedBannersIndex banner_id)) := by
          intro hc
          exact hal (congrArg Prod.fst hc.2)
        rw [if_neg hcond]
        obtain ⟨hown, hidx⟩ := ho2 a j hj
        have hyb : st.ownedBannersArray (a, j) ≠ banner_id := by
          intro hc
          rw [hc, howner] at hown
          injection hown with h2
          exact hal h2.symm
        have hyl : st.ownedBannersArray (a, j) ≠
            st.ownedBannersArray (fromAcc, st.ownedBannersCount fromAcc - 1) := by
          intro hc
          rw [hc, hlast_own] at hown
          injection hown with h2
          exact hal h2.symm
        have hcond2 : ¬ (st.ownedBannersIndex banner_id ≠ st.ownedBannersCount fromAcc - 1 ∧
            st.ownedBannersArray (a, j) =
              st.ownedBannersArray (fromAcc, st.ownedBannersCount fromAcc - 1)) := by
          intro hc
          exact hyl hc.2
        rw [if_neg hyb, if_neg hyb, if_neg hcond2]
        exact ⟨hown, hidx⟩
  · intro S hS
    simp only [transferPost] at hS ⊢
    have htoS : toAcc ∈ S := by
      by_contra hc
      have h0 := hS toAcc hc
      rw [Function.update_same] at h0
      omega
    by_cases hfS : fromAcc ∈ S
    · have hold : ∀ a ∉ S, st.ownedBannersCount a = 0 := by
        intro a ha
        have hne_t : a ≠ toAcc := by
          intro hc
          rw [hc] at ha
          exact ha htoS
        have hne_f : a ≠ fromAcc := by
          intro hc
          rw [hc] at ha
          exact ha hfS
        have h0 := hS a ha
        rwa [Function.update_noteq hne_t, Function.update_noteq hne_f] at h0
      have hsum := hcons S hold
      rw [Finset.sum_update_of_mem htoS]
      have hfS2 : fromAcc ∈ S \ {toAcc} := by
        rw [← Finset.erase_eq]
        exact Finset.mem_erase.mpr ⟨hft, hfS⟩
      rw [Finset.sum_update_of_mem hfS2]
      rw [← Finset.add_sum_erase S _ htoS, Finset.erase_eq] at hsum
      rw [← Finset.add_sum_erase (S \ {toAcc}) _ hfS2, Finset.erase_eq] at hsum
      omega
    · have h0f := hS fromAcc hfS
      rw [Function.update_noteq hft, Function.update_same] at h0f
      have hold : ∀ a ∉ insert fromAcc S, st.ownedBannersCount a = 0 := by
        intro a ha
        rw [Finset.mem_insert] at ha
        push_neg at ha
        have hne_t : a ≠ toAcc := by
          intro hc
          rw [hc] at ha
          exact ha.2 htoS
        have h0 := hS a ha.2
        rwa [Function.update_noteq hne_t, Function.update_noteq ha.1] at h0
      have hsum := hcons (insert fromAcc S) hold
      rw [Finset.sum_insert hfS] at hsum
      rw [Finset.sum_update_of_mem htoS]
      have hrest : (∑ x ∈ S \ {toAcc},
          Function.update st.ownedBannersCount fromAcc
            (st.ownedBannersCount fromAcc - 1) x) =
          ∑ x ∈ S \ {toAcc}, st.ownedBannersCount x := by
        refine Finset.sum_congr rfl ?_
        intro x hx
        have hxf : x ≠ fromAcc := by
          intro hc
          rw [← Finset.erase_eq] at hx
          rw [hc] at hx
          exact hfS (Finset.mem_of_mem_erase hx)
        rw [Function.update_noteq hxf]
      rw [hrest]
      rw [← Finset.add_sum_erase S _ htoS, Finset.erase_eq] at hsum
      omega

theorem inv_mint {st : St} (toAcc : AccountId) (banner_id : Hash) (nb : Banner)
    (h : Inv st) : Inv (mint st toAcc banner_id nb).1 := by
  by_cases hok : (mint st toAcc banner_id nb).2 = Outcome.ok
  · obtain ⟨h1, h2, h3⟩ := mint_ok_iff.mp hok
    rw [mint_eq_of_ok h1 h2 h3]
    exact inv_mintPost h h1
  · rw [mint_fst_of_not_ok hok]
    exact h

theorem inv_transfer_from {st : St} {fromAcc toAcc : AccountId} (banner_id : Hash)
    (hft : fromAcc ≠ toAcc) (h : Inv st) :
    Inv (transfer_from st fromAcc toAcc banner_id).1 := by
  by_cases hok : (transfer_from st fromAcc toAcc banner_id).2 = Outcome.ok
  · obtain ⟨h1, h2, h3⟩ := transfer_from_ok_iff.mp hok
    rw [transfer_from_eq_of_ok h1 h2 h3]
    exact inv_transferPost h hft h1
  · rw [transfer_from_fst_of_not_ok hok]
    exact h

theorem inv_currency_transfer {st : St} (s d : AccountId) (a : Balance) (h : Inv st) :
    Inv (currency_transfer st s d a).1 := by
  by_cases hle : a ≤ st.balances s
  · rw [currency_transfer_ok hle]
    exact h
  · rw [currency_transfer_err (Nat.not_le.mp hle)]
    exact h

theorem inv_create_banner {st : St} (sender : AccountId) (rh : Hash)
    (n u d : List Nat) (h : Inv st) : Inv (create_banner st sender rh n u d).1 := by
  have hm : Inv (mint st sender rh
      { id := rh, name := n, image_url := u, desc := d, current_price := 0,
        current_bidder := sender, bid_end_height := 0, can_bid := false }).1 :=
    inv_mint _ _ _ h
  rcases hmint : mint st sender rh
      { id := rh, name := n, image_url := u, desc := d, current_price := 0,
        current_bidder := sender, bid_end_height := 0, can_bid := false } with ⟨st1, o⟩
  rw [hmint] at hm
  unfold create_banner
  dsimp only
  rw [hmint]
  cases o
  · exact hm
  · exact hm

theorem inv_set_image_url {st : St} (sender : AccountId) (banner_id : Hash)
    (u : List Nat) (h : Inv st) : Inv (set_image_url st sender banner_id u).1 := by
  unfold set_image_url
  dsimp only
  split
  · split
    · exact h
    · split
      · exact h
      · exact h
  · exact h

theorem inv_auction_banner {st : St} (sender : AccountId) (banner_id : Hash)
    (p : Balance) (bn : BlockNumber) (h : Inv st) :
    Inv (auction_banner st sender banner_id p bn).1 := by
  unfold auction_banner
  dsimp only
  split
  · split
    · exact h
    · split
      · split
        · exact h
        · exact h
      · exact h
  · exact h

theorem inv_bid {st : St} (sender : AccountId) (banner_id : Hash) (p : Balance)
    (bn : BlockNumber) (h : Inv st) : Inv (bid st sender banner_id p bn).1 := by
  unfold bid
  dsimp only
  split
  case isFalse => exact h
  case isTrue hex =>
    split
    case h_1 => exact h
    case h_2 owner howner =>
      split
      case isFalse => exact h
      case isTrue hcb =>
        split
        case isTrue hfut =>
          split
          case isTrue => exact h
          case isFalse hos =>
            split
            case isTrue => exact h
            case isFalse hbp =>
              split
              case h_1 st1 e heq =>
                have h1 := inv_currency_transfer sender
                  (st.banners banner_id).current_bidder
                  (st.banners banner_id).current_price h
                rw [heq] at h1
                exact h1
              case h_2 st1 heq =>
                have h1 := inv_currency_transfer sender
                  (st.banners banner_id).current_bidder
                  (st.banners banner_id).current_price h
                rw [heq] at h1
                split
                case h_1 st2 e heq2 =>
                  have h2 := inv_currency_transfer sender owner
                    (p - (st.banners banner_id).current_price) h1
                  rw [heq2] at h2
                  exact h2
                case h_2 st2 heq2 =>
                  have h2 := inv_currency_transfer sender owner
                    (p - (st.banners banner_id).current_price) h1
                  rw [heq2] at h2
                  exact h2
        case isFalse hfut =>
          split
          case isTrue => exact h
          case isFalse hfb =>
            have h2 := @inv_transfer_from { st with banners := Function.update st.banners banner_id { st.banners banner_id with can_bid := false, bid_end_height := 0, current_bidder := (st.banners banner_id).current_bidder, current_price := 0 } } owner (st.banners banner_id).current_bidder banner_id (Ne.symm hfb) h
            split
            case h_1 st2 e heq => rw [heq] at h2; exact h2
            case h_2 st2 heq => rw [heq] at h2; exact h2

theorem step_inv {s1 s2 : St} (h : Inv s1) (hs : Step s1 s2) : Inv s2 := by
  cases hs with
  | create sender rh n u d => exact inv_create_banner sender rh n u d h
  | set_image sender b u => exact inv_set_image_url sender b u h
  | auction sender b p bn => exact inv_auction_banner sender b p bn h
  | bid_call sender b p bn => exact inv_bid sender b p bn h
  | ledger b => exact h

theorem reachable_inv {st : St} (h : Reachable st) : Inv st := by
  induction h with
  | empty => exact inv_emptySt
  | step hr hs ih => exact step_inv ih hs

/-! ## Branch equations for `bid` -/

/-- The state after the resolution branch writes the reset record
(line 160 of the source): auction fields neutral, bidder retained. -/
def bidResetSt (st : St) (banner_id : Hash) : St :=
  { st with banners := Function.update st.banners banner_id { st.banners banner_id with can_bid := false, bid_end_height := 0, current_bidder := (st.banners banner_id).current_bidder, current_price := 0 } }

theorem bidResetSt_bannerOwner (st : St) (banner_id : Hash) :
    (bidResetSt st banner_id).bannerOwner = st.bannerOwner := rfl

theorem bidResetSt_count (st : St) (banner_id : Hash) :
    (bidResetSt st banner_id).ownedBannersCount = st.ownedBannersCount := rfl

theorem bidResetSt_events (st : St) (banner_id : Hash) :
    (bidResetSt st banner_id).events = st.events := rfl

theorem bidResetSt_balances (st : St) (banner_id : Hash) :
    (bidResetSt st banner_id).balances = st.balances := rfl

theorem bid_future_eq {st : St} {sender owner : AccountId} {banner_id : Hash}
    {bid_price : Balance} {bn : BlockNumber}
    (hex : st.bannersExists banner_id = true)
    (howner : st.bannerOwner banner_id = some owner)
    (hcb : (st.banners banner_id).can_bid = true)
    (hfut : bn < (st.banners banner_id).bid_end_height) :
    bid st sender banner_id bid_price bn =
      (if owner = sender then (st, Outcome.err "You can not bid your own banner")
       else if bid_price ≤ (st.banners banner_id).current_price then
         (st, Outcome.err "your bid price must be greater than current price")
       else
         match currency_transfer st sender (st.banners banner_id).current_bidder
             (st.banners banner_id).current_price with
         | (st1, Outcome.err e) => (st1, Outcome.err e)
         | (st1, Outcome.ok) =>
           match currency_transfer st1 sender owner
               (bid_price - (st.banners banner_id).current_price) with
           | (st2, Outcome.err e) => (st2, Outcome.err e)
           | (st2, Outcome.ok) =>
             ({ st2 with
                 banners := Function.update st2.banners banner_id
                   { st.banners banner_id with
                       current_bidder := sender
                       current_price := bid_price }
                 events := st2.events ++ [Event.Bid sender banner_id bid_price] },
               Outcome.ok)) := by
  unfold bid
  rw [hex]
  simp only [eq_self_iff_true, if_true, howner, hcb, if_pos hfut]

theorem bid_expired_eq {st : St} {sender owner : AccountId} {banner_id : Hash}
    {bid_price : Balance} {bn : BlockNumber}
    (hex : st.bannersExists banner_id = true)
    (howner : st.bannerOwner banner_id = some owner)
    (hcb : (st.banners banner_id).can_bid = true)
    (hexp : ¬ bn < (st.banners banner_id).bid_end_height) :
    bid st sender banner_id bid_price bn =
      (if (st.banners banner_id).current_bidder = owner then
        ({ bidResetSt st banner_id with
            events := st.events ++ [Event.Abort owner banner_id] }, Outcome.ok)
       else
        match transfer_from (bidResetSt st banner_id) owner
            (st.banners banner_id).current_bidder banner_id with
        | (st2, Outcome.err e) => (st2, Outcome.err e)
        | (st2, Outcome.ok) =>
          ({ st2 with
              events := st2.events ++
                [Event.Deal (st.banners banner_id).current_bidder banner_id
                  (st.banners banner_id).current_price] }, Outcome.ok)) := by
  unfold bid bidResetSt
  rw [hex]
  simp only [eq_self_iff_true, if_true, howner, hcb, if_neg hexp]

/-! ## More characterization lemmas -/

theorem currency_transfer_ok_inv {st st1 : St} {s d : AccountId} {a : Balance}
    (h : currency_transfer st s d a = (st1, Outcome.ok)) :
    st1 = { st with balances := transfer_balances st.balances s d a } ∧
    a ≤ st.balances s := by
  by_cases hc : a ≤ st.balances s
  · rw [currency_transfer_ok hc] at h
    injection h with h1 h2
    exact ⟨h1.symm, hc⟩
  · rw [currency_transfer_err (Nat.not_le.mp hc)] at h
    injection h with h1 h2
    exact absurd h2 (by simp)

theorem currency_transfer_err_inv {st st1 : St} {s d : AccountId} {a : Balance}
    {e : String} (h : currency_transfer st s d a = (st1, Outcome.err e)) : st1 = st := by
  by_cases hc : a ≤ st.balances s
  · rw [currency_transfer_ok hc] at h
    injection h with h1 h2
    exact absurd h2 (by simp)
  · rw [currency_transfer_err (Nat.not_le.mp hc)] at h
    injection h with h1 h2
    exact h1.symm

theorem transfer_balances_apply (bal : AccountId → Balance) (s d x : AccountId)
    (a : Balance) :
    transfer_balances bal s d a x =
      if x = d then (if d = s then bal s - a else bal d) + a
      else if x = s then bal s - a else bal x := by
  unfold transfer_balances
  simp only [Function.update_apply]

theorem auction_banner_err_of_not_exists {st : St} {sender : AccountId}
    {banner_id : Hash} {p : Balance} {bn : BlockNumber}
    (hex : st.bannersExists banner_id = false) :
    auction_banner st sender banner_id p bn =
      (st, Outcome.err "This banner does not exist") := by
  unfold auction_banner
  simp only [hex, Bool.false_eq_true, if_false]

theorem auction_banner_err_of_none {st : St} {sender : AccountId}
    {banner_id : Hash} {p : Balance} {bn : BlockNumber}
    (hex : st.bannersExists banner_id = true)
    (hnone : st.bannerOwner banner_id = none) :
    auction_banner st sender banner_id p bn =
      (st, Outcome.err "No owner for this banner") := by
  unfold auction_banner
  simp only [hex, eq_self_iff_true, if_true, hnone]

theorem auction_banner_err_of_not_owner {st : St} {sender owner : AccountId}
    {banner_id : Hash} {p : Balance} {bn : BlockNumber}
    (hex : st.bannersExists banner_id = true)
    (howner : st.bannerOwner banner_id = some owner)
    (hns : owner ≠ sender) :
    auction_banner st sender banner_id p bn =
      (st, Outcome.err "You do not own this banner") := by
  unfold auction_banner
  simp only [hex, eq_self_iff_true, if_true, howner, hns, if_false]

theorem auction_banner_err_of_open {st : St} {sender : AccountId}
    {banner_id : Hash} {p : Balance} {bn : BlockNumber}
    (hex : st.bannersExists banner_id = true)
    (howner : st.bannerOwner banner_id = some sender)
    (hcb : (st.banners banner_id).can_bid = true) :
    auction_banner st sender banner_id p bn =
      (st, Outcome.err "This banner has already been auctioned") := by
  unfold auction_banner
  simp only [hex, eq_self_iff_true, if_true, howner, hcb]

theorem auction_banner_eq_of_idle {st : St} {sender : AccountId}
    {banner_id : Hash} {p : Balance} {bn : BlockNumber}
    (hex : st.bannersExists banner_id = true)
    (howner : st.bannerOwner banner_id = some sender)
    (hcb : (st.banners banner_id).can_bid = false) :
    auction_banner st sender banner_id p bn =
      ({ st with
          banners := Function.update st.banners banner_id { st.banners banner_id with current_price := p, can_bid := true, current_bidder := sender, bid_end_height := (bn + AUCTION_DURATION) % U64_MOD }
          events := st.events ++ [Event.StartAuction sender banner_id p] },
        Outcome.ok) := by
  unfold auction_banner
  simp only [hex, eq_self_iff_true, if_true, howner, hcb, Bool.false_eq_true, if_false]

theorem create_banner_eq_of_ok {st : St} {sender : AccountId} {rh : Hash}
    {n u d : List Nat}
    (h1 : st.bannerOwner rh = none)
    (h2 : st.ownedBannersCount sender + 1 < U64_MOD)
    (h3 : st.allBannersCount + 1 < U64_MOD) :
    create_banner st sender rh n u d =
      ({ mintPost st sender rh
          { id := rh, name := n, image_url := u, desc := d, current_price := 0,
            current_bidder := sender, bid_end_height := 0, can_bid := false } with
          nonce := (st.nonce + 1) % U64_MOD }, Outcome.ok) := by
  unfold create_banner
  dsimp only
  rw [mint_eq_of_ok h1 h2 h3]
  rfl

theorem create_banner_err_of_mint_err {st : St} {sender : AccountId} {rh : Hash}
    {n u d : List Nat} {e : String}
    (h : mint st sender rh
        { id := rh, name := n, image_url := u, desc := d, current_price := 0,
          current_bidder := sender, bid_end_height := 0, can_bid := false } =
      (st, Outcome.err e)) :
    create_banner st sender rh n u d = (st, Outcome.err e) := by
  unfold create_banner
  dsimp only
  rw [h]

theorem create_banner_ok_iff {st : St} {sender : AccountId} {rh : Hash}
    {n u d : List Nat} :
    (create_banner st sender rh n u d).2 = Outcome.ok ↔
      st.bannerOwner rh = none ∧
      st.ownedBannersCount sender + 1 < U64_MOD ∧
      st.allBannersCount + 1 < U64_MOD := by
  constructor
  · intro hok
    by_cases h1 : st.bannerOwner rh = none
    · by_cases h2 : st.ownedBannersCount sender + 1 < U64_MOD
      · by_cases h3 : st.allBannersCount + 1 < U64_MOD
        · exact ⟨h1, h2, h3⟩
        · rw [create_banner_err_of_mint_err (mint_err_of_all_overflow h1 h2 h3)] at hok
          exact absurd hok (by simp)
      · rw [create_banner_err_of_mint_err (mint_err_of_owned_overflow h1 h2)] at hok
        exact absurd hok (by simp)
    · rw [create_banner_err_of_mint_err
        (mint_err_of_dup (Option.ne_none_iff_isSome.mp h1))] at hok
      exact absurd hok (by simp)
  · rintro ⟨h1, h2, h3⟩
    rw [create_banner_eq_of_ok h1 h2 h3]

theorem auction_banner_ok_inv {st : St} {sender : AccountId} {banner_id : Hash}
    {p : Balance} {bn : BlockNumber}
    (hok : (auction_banner st sender banner_id p bn).2 = Outcome.ok) :
    st.bannersExists banner_id = true ∧ st.bannerOwner banner_id = some sender ∧
    (st.banners banner_id).can_bid = false := by
  by_cases hex : st.bannersExists banner_id = true
  · rcases howner : st.bannerOwner banner_id with _ | o
    · rw [auction_banner_err_of_none hex howner] at hok
      exact absurd hok (by simp)
    · by_cases hos : o = sender
      · subst o
        by_cases hcb : (st.banners banner_id).can_bid = true
        · rw [auction_banner_err_of_open hex howner hcb] at hok
          exact absurd hok (by simp)
        · exact ⟨hex, rfl, by simpa using hcb⟩
      · rw [auction_banner_err_of_not_owner hex howner hos] at hok
        exact absurd hok (by simp)
  · have hex2 : st.bannersExists banner_id = false := by simpa using hex
    rw [auction_banner_err_of_not_exists hex2] at hok
    exact absurd hok (by simp)

/-! ## Concrete states for witnesses and counterexamples -/

/-- A banner record with identifier 5 and the given auction fields. -/
def mkBanner (price : Balance) (bidder : AccountId) (cb : Bool)
    (endH : BlockNumber) : Banner :=
  { id := 5, name := [], image_url := [], desc := [], current_price := price,
    current_bidder := bidder, can_bid := cb, bid_end_height := endH }

/-- A store holding exactly banner 5, owned by account 1 (consistently
indexed), where account 2 holds the given balance. -/
def mkSt (b : Banner) (bal2 : Balance) : St :=
  { emptySt with
      banners := Function.update emptySt.banners 5 b
      bannersExists := Function.update emptySt.bannersExists 5 true
      bannerOwner := Function.update emptySt.bannerOwner 5 (some 1)
      allBannersArray := Function.update emptySt.allBannersArray 0 5
      allBannersCount := 1
      allBannersIndex := Function.update emptySt.allBannersIndex 5 0
      ownedBannersArray := Function.update emptySt.ownedBannersArray (1, 0) 5
      ownedBannersCount := Function.update emptySt.ownedBannersCount 1 1
      ownedBannersIndex := Function.update emptySt.ownedBannersIndex 5 0
      balances := Function.update emptySt.balances 2 bal2 }

/-- Banner 5 idle (no auction running), owner 1. -/
def stIdle : St := mkSt (mkBanner 0 1 false 0) 0

/-- Banner 5 mid-auction at price 100 with the owner 1 as placeholder
leading bidder (the state right after startAuction), account 2 funded. -/
def stOpen : St := mkSt (mkBanner 100 1 true 14400) 200

/-- Like stOpen but account 2 holds exactly the current price: the refund
leg of a bid of 150 succeeds and the incremental leg fails. -/
def stShort : St := mkSt (mkBanner 100 1 true 14400) 100

/-- Banner 5 mid-auction at price 150 with non-owner 2 leading. -/
def stLed : St := mkSt (mkBanner 150 2 true 14400) 400

/-- C9: startAuction (auction_banner) requires the caller to own the asset
and the asset to be Idle, failing with the already-auctioning error when the
owner calls it on an Open asset; on success it sets the price, the caller as
placeholder bidder, the biddable flag and the deadline current block plus
AUCTION_DURATION, and emits StartAuction with the starting price. -/
theorem claim_C9_auction_start (st : St) (sender : AccountId) (banner_id : Hash)
    (p : Balance) (bn : BlockNumber) (hbn : bn + AUCTION_DURATION < U64_MOD) :
    ((auction_banner st sender banner_id p bn).2 = Outcome.ok →
      st.bannersExists banner_id = true ∧ st.bannerOwner banner_id = some sender ∧
      (st.banners banner_id).can_bid = false) ∧
    (st.bannersExists banner_id = true → st.bannerOwner banner_id = some sender →
      (st.banners banner_id).can_bid = true →
      auction_banner st sender banner_id p bn =
        (st, Outcome.err "This banner has already been auctioned")) ∧
    ((auction_banner st sender banner_id p bn).2 = Outcome.ok →
      ((auction_banner st sender banner_id p bn).1.banners banner_id).current_price = p ∧
      ((auction_banner st sender banner_id p bn).1.banners banner_id).current_bidder = sender ∧
      ((auction_banner st sender banner_id p bn).1.banners banner_id).can_bid = true ∧
      ((auction_banner st sender banner_id p bn).1.banners banner_id).bid_end_height =
        bn + AUCTION_DURATION ∧
      (auction_banner st sender banner_id p bn).1.events =
        st.events ++ [Event.StartAuction sender banner_id p]) := by
  refine ⟨fun hok => auction_banner_ok_inv hok, ?_, ?_⟩
  · intro hex howner hcb
    exact auction_banner_err_of_open hex howner hcb
  · intro hok
    obtain ⟨hex, howner, hcb⟩ := auction_banner_ok_inv hok
    rw [auction_banner_eq_of_idle hex howner hcb]
    simp only [Function.update_apply, eq_self_iff_true, if_true]
    refine ⟨trivial, trivial, trivial, ?_, trivial⟩
    exact Nat.mod_eq_of_lt hbn

theorem claim_C9_witness :
    ((auction_banner stIdle 1 5 100 7).1.banners 5).current_price = 100 ∧
    ((auction_banner stIdle 1 5 100 7).1.banners 5).current_bidder = 1 ∧
    ((auction_banner stIdle 1 5 100 7).1.banners 5).can_bid = true ∧
    ((auction_banner stIdle 1 5 100 7).1.banners 5).bid_end_height =
      7 + AUCTION_DURATION ∧
    (auction_banner stIdle 1 5 100 7).1.events =
      stIdle.events ++ [Event.StartAuction 1 5 100] :=
  (claim_C9_auction_start stIdle 1 5 100 7 (by decide)).2.2 (by decide)

/-- C3: in every state reachable from the empty store by module calls (in
particular after any sequence of successful creates and transfers, the
latter occurring through auction settlement), every existing asset has its
reverse-index entry equal to its actual position in the forward array, both
for the global index and for the index of its current owner; the position
is unique, so the reverse index IS the position. -/
theorem claim_C3_index_consistency (st : St) (hr : Reachable st) (h : Hash)
    (a : AccountId) (hown : st.bannerOwner h = some a) :
    (st.allBannersIndex h < st.allBannersCount ∧
     st.allBannersArray (st.allBannersIndex h) = h ∧
     ∀ i, i < st.allBannersCount → st.allBannersArray i = h →
       i = st.allBannersIndex h) ∧
    (st.ownedBannersIndex h < st.ownedBannersCount a ∧
     st.ownedBannersArray (a, st.ownedBannersIndex h) = h ∧
     ∀ j, j < st.ownedBannersCount a → st.ownedBannersArray (a, j) = h →
       j = st.ownedBannersIndex h) := by
  obtain ⟨⟨hg1, hg2⟩, ⟨ho1, ho2⟩, hcons⟩ := reachable_inv hr
  obtain ⟨hgb, hga⟩ := hg1 h (by rw [hown]; rfl)
  obtain ⟨hob, hoa⟩ := ho1 h a hown
  refine ⟨⟨hgb, hga, ?_⟩, ⟨hob, hoa, ?_⟩⟩
  · intro i hi harr
    have := (hg2 i hi).2
    rw [harr] at this
    exact this.symm
  · intro j hj harr
    have := (ho2 a j hj).2
    rw [harr] at this
    exact this.symm

/-- State reached by one successful create of banner 7 by account 1. -/
def stOne : St := (create_banner emptySt 1 7 [] [] []).1

theorem stOne_reachable : Reachable stOne :=
  Reachable.step Reachable.empty (Step.create emptySt 1 7 [] [] [])

theorem claim_C3_witness :
    (stOne.allBannersIndex 7 < stOne.allBannersCount ∧
     stOne.allBannersArray (stOne.allBannersIndex 7) = 7 ∧
     ∀ i, i < stOne.allBannersCount → stOne.allBannersArray i = 7 →
       i = stOne.allBannersIndex 7) ∧
    (stOne.ownedBannersIndex 7 < stOne.ownedBannersCount 1 ∧
     stOne.ownedBannersArray (1, stOne.ownedBannersIndex 7) = 7 ∧
     ∀ j, j < stOne.ownedBannersCount 1 → stOne.ownedBannersArray (1, j) = 7 →
       j = stOne.ownedBannersIndex 7) :=
  claim_C3_index_consistency stOne stOne_reachable 7 1 (by decide)

/-- C8: in every state reachable from the empty store by module calls, for
any finite set of accounts outside of which all per-owner counts are zero,
the sum of the per-owner counts equals the global asset count. -/
theorem claim_C8_conservation (st : St) (hr : Reachable st)
    (S : Finset AccountId) (hS : ∀ a ∉ S, st.ownedBannersCount a = 0) :
    (∑ a ∈ S, st.ownedBannersCount a) = st.allBannersCount :=
  (reachable_inv hr).2.2 S hS

theorem claim_C8_witness :
    (∑ a ∈ ({1, 2} : Finset AccountId), stOne.ownedBannersCount a) =
      stOne.allBannersCount :=
  claim_C8_conservation stOne stOne_reachable {1, 2} (by
    intro a ha
    simp only [Finset.mem_insert, Finset.mem_singleton] at ha
    push_neg at ha
    show Function.update emptySt.ownedBannersCount 1 1 a = 0
    rw [Function.update_noteq ha.1]
    rfl)

/-- C7: a successful transfer between distinct accounts (`transfer_from`,
whose single call site --- auction settlement at line 167 --- always has
`from` = owner distinct from `to` = final bidder) leaves the global index,
the asset records, the nonce and the balance ledger entirely unchanged;
only the recorded owner of the transferred asset, the two per-owner counts
(source decremented, destination incremented) and the per-owner structures
change. -/
theorem claim_C7_transfer_frame (st : St) (fromAcc toAcc : AccountId)
    (banner_id : Hash) (hft : fromAcc ≠ toAcc)
    (hok : (transfer_from st fromAcc toAcc banner_id).2 = Outcome.ok) :
    (transfer_from st fromAcc toAcc banner_id).1.allBannersArray =
      st.allBannersArray ∧
    (transfer_from st fromAcc toAcc banner_id).1.allBannersCount =
      st.allBannersCount ∧
    (transfer_from st fromAcc toAcc banner_id).1.allBannersIndex =
      st.allBannersIndex ∧
    (transfer_from st fromAcc toAcc banner_id).1.banners = st.banners ∧
    (transfer_from st fromAcc toAcc banner_id).1.bannersExists =
      st.bannersExists ∧
    (transfer_from st fromAcc toAcc banner_id).1.nonce = st.nonce ∧
    (transfer_from st fromAcc toAcc banner_id).1.balances = st.balances ∧
    (transfer_from st fromAcc toAcc banner_id).1.bannerOwner banner_id =
      some toAcc ∧
    (∀ h2 : Hash, h2 ≠ banner_id →
      (transfer_from st fromAcc toAcc banner_id).1.bannerOwner h2 =
        st.bannerOwner h2) ∧
    (transfer_from st fromAcc toAcc banner_id).1.ownedBannersCount fromAcc =
      st.ownedBannersCount fromAcc - 1 ∧
    (transfer_from st fromAcc toAcc banner_id).1.ownedBannersCount toAcc =
      st.ownedBannersCount toAcc + 1 ∧
    (∀ a : AccountId, a ≠ fromAcc → a ≠ toAcc →
      (transfer_from st fromAcc toAcc banner_id).1.ownedBannersCount a =
        st.ownedBannersCount a) := by
  obtain ⟨h1, h2, h3⟩ := transfer_from_ok_iff.mp hok
  rw [transfer_from_eq_of_ok h1 h2 h3]
  refine ⟨transferPost_allArray .., transferPost_allCount .., transferPost_allIndex ..,
    transferPost_banners .., transferPost_bannersExists .., transferPost_nonce ..,
    transferPost_balances .., ?_, ?_, ?_, ?_, ?_⟩
  · rw [transferPost_owner]
    simp only [eq_self_iff_true, if_true]
  · intro x hx
    rw [transferPost_owner]
    simp only [hx, if_false]
  · rw [transferPost_count]
    simp only [hft, if_false, eq_self_iff_true, if_true]
  · rw [transferPost_count]
    simp only [eq_self_iff_true, if_true]
  · intro a ha hb
    rw [transferPost_count]
    simp only [ha, hb, if_false]

theorem claim_C7_witness :
    (transfer_from stIdle 1 2 5).1.allBannersArray = stIdle.allBannersArray ∧
    (transfer_from stIdle 1 2 5).1.allBannersCount = stIdle.allBannersCount ∧
    (transfer_from stIdle 1 2 5).1.allBannersIndex = stIdle.allBannersIndex ∧
    (transfer_from stIdle 1 2 5).1.banners = stIdle.banners ∧
    (transfer_from stIdle 1 2 5).1.bannersExists = stIdle.bannersExists ∧
    (transfer_from stIdle 1 2 5).1.nonce = stIdle.nonce ∧
    (transfer_from stIdle 1 2 5).1.balances = stIdle.balances ∧
    (transfer_from stIdle 1 2 5).1.bannerOwner 5 = some 2 ∧
    (∀ h2 : Hash, h2 ≠ 5 →
      (transfer_from stIdle 1 2 5).1.bannerOwner h2 = stIdle.bannerOwner h2) ∧
    (transfer_from stIdle 1 2 5).1.ownedBannersCount 1 =
      stIdle.ownedBannersCount 1 - 1 ∧
    (transfer_from stIdle 1 2 5).1.ownedBannersCount 2 =
      stIdle.ownedBannersCount 2 + 1 ∧
    (∀ a : AccountId, a ≠ 1 → a ≠ 2 →
      (transfer_from stIdle 1 2 5).1.ownedBannersCount a =
        stIdle.ownedBannersCount a) :=
  claim_C7_transfer_frame stIdle 1 2 5 (by decide) (by decide)

/-- C6: a successful create stores the new record with neutral auction
fields, appends the id to the global array at the prior global count and
increments that count, does the same for the creating account, records the
reverse indices, and increments the nonce; if either count is at the top of
the u64 range the operation fails with the corresponding overflow error
and writes nothing. -/
theorem claim_C6_create (st : St) (sender : AccountId) (rh : Hash)
    (n u d : List Nat) :
    ((create_banner st sender rh n u d).2 = Outcome.ok →
      (create_banner st sender rh n u d).1.banners rh =
        { id := rh, name := n, image_url := u, desc := d, current_price := 0,
          current_bidder := sender, can_bid := false, bid_end_height := 0 } ∧
      (create_banner st sender rh n u d).1.bannersExists rh = true ∧
      (create_banner st sender rh n u d).1.bannerOwner rh = some sender ∧
      (create_banner st sender rh n u d).1.allBannersArray st.allBannersCount = rh ∧
      (create_banner st sender rh n u d).1.allBannersCount = st.allBannersCount + 1 ∧
      (create_banner st sender rh n u d).1.allBannersIndex rh = st.allBannersCount ∧
      (create_banner st sender rh n u d).1.ownedBannersArray
        (sender, st.ownedBannersCount sender) = rh ∧
      (create_banner st sender rh n u d).1.ownedBannersCount sender =
        st.ownedBannersCount sender + 1 ∧
      (create_banner st sender rh n u d).1.ownedBannersIndex rh =
        st.ownedBannersCount sender ∧
      (st.nonce + 1 < U64_MOD →
        (create_banner st sender rh n u d).1.nonce = st.nonce + 1)) ∧
    (st.bannerOwner rh = none →
      (st.ownedBannersCount sender = U64_MOD - 1 ∨ st.allBannersCount = U64_MOD - 1) →
      (create_banner st sender rh n u d).1 = st ∧
      ((create_banner st sender rh n u d).2 =
          Outcome.err "Overflow adding a new banner to account balance" ∨
       (create_banner st sender rh n u d).2 =
          Outcome.err "Overflow adding a new banner to total supply")) := by
  constructor
  · intro hok
    obtain ⟨c1, c2, c3⟩ := create_banner_ok_iff.mp hok
    rw [create_banner_eq_of_ok c1 c2 c3]
    simp only [mintPost, Function.update_apply, eq_self_iff_true, if_true]
    refine ⟨trivial, trivial, trivial, trivial, trivial, trivial, trivial, trivial,
      trivial, ?_⟩
    intro hn
    exact Nat.mod_eq_of_lt hn
  · intro hnone hcap
    by_cases hoc : st.ownedBannersCount sender + 1 < U64_MOD
    · have hov : ¬ st.allBannersCount + 1 < U64_MOD := by
        rcases hcap with hc | hc
        · omega
        · omega
      rw [create_banner_err_of_mint_err (mint_err_of_all_overflow hnone hoc hov)]
      exact ⟨rfl, Or.inr rfl⟩
    · rw [create_banner_err_of_mint_err (mint_err_of_owned_overflow hnone hoc)]
      exact ⟨rfl, Or.inl rfl⟩

/-- A store whose only deviation from empty is that account 1 already owns
the maximal number of assets a u64 can count. -/
def stOv : St :=
  { emptySt with ownedBannersCount :=
      Function.update emptySt.ownedBannersCount 1 (U64_MOD - 1) }

theorem claim_C6_witness :
    ((create_banner emptySt 1 7 [] [] []).1.banners 7 =
        { id := 7, name := [], image_url := [], desc := [], current_price := 0,
          current_bidder := 1, can_bid := false, bid_end_height := 0 } ∧
      (create_banner emptySt 1 7 [] [] []).1.bannerOwner 7 = some 1 ∧
      (create_banner emptySt 1 7 [] [] []).1.allBannersCount =
        emptySt.allBannersCount + 1 ∧
      (create_banner emptySt 1 7 [] [] []).1.nonce = emptySt.nonce + 1) ∧
    ((create_banner stOv 1 7 [] [] []).1 = stOv ∧
      ((create_banner stOv 1 7 [] [] []).2 =
          Outcome.err "Overflow adding a new banner to account balance" ∨
       (create_banner stOv 1 7 [] [] []).2 =
          Outcome.err "Overflow adding a new banner to total supply")) := by
  constructor
  · have h := (claim_C6_create emptySt 1 7 [] [] []).1 (by decide)
    exact ⟨h.1, h.2.2.1, h.2.2.2.2.1, h.2.2.2.2.2.2.2.2.2 (by decide)⟩
  · exact (claim_C6_create stOv 1 7 [] [] []).2 rfl (Or.inl rfl)

/-- C5: a bid on an Open asset before the deadline is accepted only if the
caller is not the owner (an owner call fails with the cannot-bid-own error)
and only if the offered price strictly exceeds the current price (an equal
or lower offer fails with the bid-too-low error); on acceptance the record
shows the caller as leading bidder at the offered price and a Bid event is
emitted. -/
theorem claim_C5_bid_accept (st : St) (sender owner : AccountId) (banner_id : Hash)
    (p : Balance) (bn : BlockNumber)
    (hex : st.bannersExists banner_id = true)
    (howner : st.bannerOwner banner_id = some owner)
    (hcb : (st.banners banner_id).can_bid = true)
    (hfut : bn < (st.banners banner_id).bid_end_height) :
    (owner = sender →
      bid st sender banner_id p bn =
        (st, Outcome.err "You can not bid your own banner")) ∧
    (owner ≠ sender → p ≤ (st.banners banner_id).current_price →
      bid st sender banner_id p bn =
        (st, Outcome.err "your bid price must be greater than current price")) ∧
    ((bid st sender banner_id p bn).2 = Outcome.ok →
      owner ≠ sender ∧ (st.banners banner_id).current_price < p ∧
      ((bid st sender banner_id p bn).1.banners banner_id).current_bidder = sender ∧
      ((bid st sender banner_id p bn).1.banners banner_id).current_price = p ∧
      (bid st sender banner_id p bn).1.events =
        st.events ++ [Event.Bid sender banner_id p]) := by
  rw [bid_future_eq hex howner hcb hfut]
  refine ⟨?_, ?_, ?_⟩
  · intro hos
    rw [if_pos hos]
  · intro hos hle
    rw [if_neg hos, if_pos hle]
  · intro hok
    by_cases hos : owner = sender
    · rw [if_pos hos] at hok
      exact absurd hok (by simp)
    · rw [if_neg hos] at hok ⊢
      by_cases hle : p ≤ (st.banners banner_id).current_price
      · rw [if_pos hle] at hok
        exact absurd hok (by simp)
      · rw [if_neg hle] at hok ⊢
        rcases hc1 : currency_transfer st sender (st.banners banner_id).current_bidder
            (st.banners banner_id).current_price with ⟨st1, o1⟩
        rw [hc1] at hok
        cases o1 with
        | err e => simp at hok
        | ok =>
          dsimp only at hok ⊢
          rcases hc2 : currency_transfer st1 sender owner
              (p - (st.banners banner_id).current_price) with ⟨st2, o2⟩
          rw [hc2] at hok
          cases o2 with
          | err e => simp at hok
          | ok =>
            obtain ⟨hst1, hle1⟩ := currency_transfer_ok_inv hc1
            obtain ⟨hst2, hle2⟩ := currency_transfer_ok_inv hc2
            subst hst1
            subst hst2
            refine ⟨hos, Nat.not_le.mp hle, ?_, ?_, ?_⟩
            · dsimp only
              simp only [Function.update_apply, eq_self_iff_true, if_true]
            · dsimp only
              simp only [Function.update_apply, eq_self_iff_true, if_true]
            · dsimp only

theorem claim_C5_witness :
    (bid stOpen 1 5 150 1 = (stOpen, Outcome.err "You can not bid your own banner")) ∧
    (bid stOpen 2 5 100 1 =
      (stOpen, Outcome.err "your bid price must be greater than current price")) ∧
    (((bid stOpen 2 5 150 1).1.banners 5).current_bidder = 2 ∧
     ((bid stOpen 2 5 150 1).1.banners 5).current_price = 150 ∧
     (bid stOpen 2 5 150 1).1.events = stOpen.events ++ [Event.Bid 2 5 150]) := by
  refine ⟨?_, ?_, ?_⟩
  · exact (claim_C5_bid_accept stOpen 1 1 5 150 1 (by decide) (by decide)
      (by decide) (by decide)).1 rfl
  · exact (claim_C5_bid_accept stOpen 2 1 5 100 1 (by decide) (by decide)
      (by decide) (by decide)).2.1 (by decide) (by decide)
  · have h := (claim_C5_bid_accept stOpen 2 1 5 150 1 (by decide) (by decide)
      (by decide) (by decide)).2.2 (by decide)
    exact ⟨h.2.2.1, h.2.2.2.1, h.2.2.2.2⟩

theorem bid_expired_record {st : St} {sender owner : AccountId} {banner_id : Hash}
    {p : Balance} {bn : BlockNumber}
    (hex : st.bannersExists banner_id = true)
    (howner : st.bannerOwner banner_id = some owner)
    (hcb : (st.banners banner_id).can_bid = true)
    (hexp : ¬ bn < (st.banners banner_id).bid_end_height) :
    (bid st sender banner_id p bn).1.banners banner_id =
      { st.banners banner_id with can_bid := false, bid_end_height := 0, current_bidder := (st.banners banner_id).current_bidder, current_price := 0 } ∧
    (bid st sender banner_id p bn).1.balances = st.balances := by
  rw [bid_expired_eq hex howner hcb hexp]
  by_cases hfb : (st.banners banner_id).current_bidder = owner
  · rw [if_pos hfb]
    constructor
    · show (bidResetSt st banner_id).banners banner_id = _
      unfold bidResetSt
      simp only [Function.update_apply, eq_self_iff_true, if_true]
    · rfl
  · rw [if_neg hfb]
    rcases hq : transfer_from (bidResetSt st banner_id) owner
        (st.banners banner_id).current_bidder banner_id with ⟨st2, o⟩
    cases o with
    | err e =>
      have h1 : st2 = bidResetSt st banner_id := by
        have h2 := @transfer_from_fst_of_not_ok (bidResetSt st banner_id) owner
          ((st.banners banner_id).current_bidder) banner_id (by rw [hq]; simp)
        rw [hq] at h2
        exact h2
      subst st2
      dsimp only
      constructor
      · show (bidResetSt st banner_id).banners banner_id = _
        unfold bidResetSt
        simp only [Function.update_apply, eq_self_iff_true, if_true]
      · rfl
    | ok =>
      have hok2 : (transfer_from (bidResetSt st banner_id) owner
          (st.banners banner_id).current_bidder banner_id).2 = Outcome.ok := by
        rw [hq]
      obtain ⟨c1, c2, c3⟩ := transfer_from_ok_iff.mp hok2
      have h1 : st2 = transferPost (bidResetSt st banner_id) owner
          (st.banners banner_id).current_bidder banner_id := by
        have h2 := transfer_from_eq_of_ok c1 c2 c3
        rw [hq] at h2
        exact congrArg Prod.fst h2
      subst st2
      dsimp only
      constructor
      · show (transferPost (bidResetSt st banner_id) owner
            (st.banners banner_id).current_bidder banner_id).banners banner_id = _
        rw [transferPost_banners]
        show (bidResetSt st banner_id).banners banner_id = _
        unfold bidResetSt
        simp only [Function.update_apply, eq_self_iff_true, if_true]
      · show (transferPost (bidResetSt st banner_id) owner
            (st.banners banner_id).current_bidder banner_id).balances = _
        rw [transferPost_balances]
        rfl

/-- C4: a bid call on an Open asset at or past the deadline does not apply
the supplied price as a bid; it resets the auction fields (biddable false,
deadline 0, price 0) and moves no funds; then, if the captured final bidder
is the owner, it emits Abort and ownership does not change, and otherwise
it invokes the registry transfer from the owner to the final bidder (which
succeeds whenever the owner count is positive and the final bidder count
is below the u64 limit) and emits a Deal event carrying the final bidder,
the asset and the pre-reset price. -/
theorem claim_C4_bid_resolution (st : St) (sender owner : AccountId)
    (banner_id : Hash) (p : Balance) (bn : BlockNumber)
    (hex : st.bannersExists banner_id = true)
    (howner : st.bannerOwner banner_id = some owner)
    (hcb : (st.banners banner_id).can_bid = true)
    (hexp : ¬ bn < (st.banners banner_id).bid_end_height) :
    (((bid st sender banner_id p bn).1.banners banner_id).can_bid = false ∧
     ((bid st sender banner_id p bn).1.banners banner_id).bid_end_height = 0 ∧
     ((bid st sender banner_id p bn).1.banners banner_id).current_price = 0 ∧
     (bid st sender banner_id p bn).1.balances = st.balances) ∧
    ((st.banners banner_id).current_bidder = owner →
      bid st sender banner_id p bn =
        ({ bidResetSt st banner_id with
            events := st.events ++ [Event.Abort owner banner_id] }, Outcome.ok) ∧
      (bid st sender banner_id p bn).1.bannerOwner banner_id = some owner) ∧
    ((st.banners banner_id).current_bidder ≠ owner →
      1 ≤ st.ownedBannersCount owner →
      st.ownedBannersCount ((st.banners banner_id).current_bidder) + 1 < U64_MOD →
      (bid st sender banner_id p bn).2 = Outcome.ok ∧
      (bid st sender banner_id p bn).1.bannerOwner banner_id =
        some ((st.banners banner_id).current_bidder) ∧
      (bid st sender banner_id p bn).1.events = st.events ++
        [Event.Transferred owner ((st.banners banner_id).current_bidder) banner_id,
         Event.Deal ((st.banners banner_id).current_bidder) banner_id
           ((st.banners banner_id).current_price)]) := by
  refine ⟨?_, ?_, ?_⟩
  · obtain ⟨h1, h2⟩ := @bid_expired_record st sender owner banner_id p bn hex howner hcb hexp
    rw [h1]
    exact ⟨rfl, rfl, rfl, h2⟩
  · intro hfb
    rw [bid_expired_eq hex howner hcb hexp, if_pos hfb]
    refine ⟨rfl, ?_⟩
    show (bidResetSt st banner_id).bannerOwner banner_id = some owner
    rw [bidResetSt_bannerOwner]
    exact howner
  · intro hfb hc1 hc2
    rw [bid_expired_eq hex howner hcb hexp, if_neg hfb]
    have c1 : (bidResetSt st banner_id).bannerOwner banner_id = some owner := by
      rw [bidResetSt_bannerOwner]
      exact howner
    have c2 : (bidResetSt st banner_id).ownedBannersCount
        ((st.banners banner_id).current_bidder) + 1 < U64_MOD := by
      rw [bidResetSt_count]
      exact hc2
    have c3 : 1 ≤ (bidResetSt st banner_id).ownedBannersCount owner := by
      rw [bidResetSt_count]
      exact hc1
    rw [transfer_from_eq_of_ok c1 c2 c3]
    dsimp only
    refine ⟨rfl, ?_, ?_⟩
    · show (transferPost (bidResetSt st banner_id) owner
          ((st.banners banner_id).current_bidder) banner_id).bannerOwner banner_id = _
      rw [transferPost_owner]
      simp only [eq_self_iff_true, if_true]
    · show (transferPost (bidResetSt st banner_id) owner
          ((st.banners banner_id).current_bidder) banner_id).events ++
          [Event.Deal ((st.banners banner_id).current_bidder) banner_id
            ((st.banners banner_id).current_price)] = _
      rw [transferPost_events, bidResetSt_events, List.append_assoc]
      rfl

theorem claim_C4_witness :
    ((((bid stLed 3 5 999 14400).1.banners 5).can_bid = false ∧
      ((bid stLed 3 5 999 14400).1.banners 5).bid_end_height = 0 ∧
      ((bid stLed 3 5 999 14400).1.banners 5).current_price = 0 ∧
      (bid stLed 3 5 999 14400).1.balances = stLed.balances) ∧
     ((bid stLed 3 5 999 14400).2 = Outcome.ok ∧
      (bid stLed 3 5 999 14400).1.bannerOwner 5 = some 2 ∧
      (bid stLed 3 5 999 14400).1.events = stLed.events ++
        [Event.Transferred 1 2 5, Event.Deal 2 5 150])) ∧
    (bid stOpen 3 5 999 14400 =
      ({ bidResetSt stOpen 5 with
          events := stOpen.events ++ [Event.Abort 1 5] }, Outcome.ok)) := by
  refine ⟨⟨?_, ?_⟩, ?_⟩
  · exact (claim_C4_bid_resolution stLed 3 1 5 999 14400 (by decide) (by decide)
      (by decide) (by decide)).1
  · exact (claim_C4_bid_resolution stLed 3 1 5 999 14400 (by decide) (by decide)
      (by decide) (by decide)).2.2 (by decide) (by decide) (by decide)
  · exact ((claim_C4_bid_resolution stOpen 3 1 5 999 14400 (by decide) (by decide)
      (by decide) (by decide)).2.1 (by decide)).1

/-- C10: after the lazy-resolution branch of bid, the stored current_bidder
still equals the resolved round final bidder (the pre-call current_bidder)
--- it is not reset to a neutral value --- even though current_price,
bid_end_height and the biddable flag are reset. -/
theorem claim_C10_bidder_retained (st : St) (sender owner : AccountId)
    (banner_id : Hash) (p : Balance) (bn : BlockNumber)
    (hex : st.bannersExists banner_id = true)
    (howner : st.bannerOwner banner_id = some owner)
    (hcb : (st.banners banner_id).can_bid = true)
    (hexp : ¬ bn < (st.banners banner_id).bid_end_height) :
    ((bid st sender banner_id p bn).1.banners banner_id).current_bidder =
      (st.banners banner_id).current_bidder ∧
    ((bid st sender banner_id p bn).1.banners banner_id).can_bid = false ∧
    ((bid st sender banner_id p bn).1.banners banner_id).bid_end_height = 0 ∧
    ((bid st sender banner_id p bn).1.banners banner_id).current_price = 0 := by
  obtain ⟨h1, h2⟩ := @bid_expired_record st sender owner banner_id p bn hex howner hcb hexp
  rw [h1]
  exact ⟨rfl, rfl, rfl, rfl⟩

theorem claim_C10_witness :
    ((bid stLed 3 5 999 14400).1.banners 5).current_bidder =
      (stLed.banners 5).current_bidder ∧
    ((bid stLed 3 5 999 14400).1.banners 5).can_bid = false ∧
    ((bid stLed 3 5 999 14400).1.banners 5).bid_end_height = 0 ∧
    ((bid stLed 3 5 999 14400).1.banners 5).current_price = 0 :=
  claim_C10_bidder_retained stLed 3 1 5 999 14400 (by decide) (by decide)
    (by decide) (by decide)

/-- Like stShort, but account 2 cannot even afford the refund leg. -/
def stPoor : St := mkSt (mkBanner 100 1 true 14400) 50

/-- An inconsistent store (owner count zero) on which auction settlement
fails with the defensive underflow error. -/
def stBad : St :=
  { mkSt (mkBanner 150 2 true 14400) 0 with ownedBannersCount := fun _ => 0 }

/-- C1 counterexample: a bid call on an Open asset before the deadline, by
a caller who can afford the refund of the current price but not the
incremental payment.  The call fails, yet the refund transfer has already
moved funds from the caller to the previous leading bidder: the failed
operation is not all-or-nothing, refuting the claim that on a transfer
failure no balance is moved. -/
theorem claim_C1_counterexample :
    (bid stShort 2 5 150 1).2 = Outcome.err "balance too low to send value" ∧
    stShort.balances 2 = 100 ∧ stShort.balances 1 = 0 ∧
    (bid stShort 2 5 150 1).1.balances 2 = 0 ∧
    (bid stShort 2 5 150 1).1.balances 1 = 100 := by
  decide

/-- C1 amended: in the accepted-bid branch, a failure of the FIRST transfer
leaves the state fully unchanged, and any failure leaves everything except
the balance ledger unchanged (the asset record, both indices, ownership and
the event log) --- but a failure of the second transfer leaves the first
transfer applied.  In the resolution branch a settlement failure leaves the
auction-field reset visible (and changes nothing else; no funds move). -/
theorem claim_C1_amended (st : St) (sender owner : AccountId) (banner_id : Hash)
    (p : Balance) (bn : BlockNumber)
    (hex : st.bannersExists banner_id = true)
    (howner : st.bannerOwner banner_id = some owner)
    (hcb : (st.banners banner_id).can_bid = true) :
    (bn < (st.banners banner_id).bid_end_height → owner ≠ sender →
      (st.banners banner_id).current_price < p →
      st.balances sender < (st.banners banner_id).current_price →
      bid st sender banner_id p bn =
        (st, Outcome.err "balance too low to send value")) ∧
    (bn < (st.banners banner_id).bid_end_height →
      ∀ e, (bid st sender banner_id p bn).2 = Outcome.err e →
      (bid st sender banner_id p bn).1.banners = st.banners ∧
      (bid st sender banner_id p bn).1.bannerOwner = st.bannerOwner ∧
      (bid st sender banner_id p bn).1.allBannersArray = st.allBannersArray ∧
      (bid st sender banner_id p bn).1.allBannersCount = st.allBannersCount ∧
      (bid st sender banner_id p bn).1.allBannersIndex = st.allBannersIndex ∧
      (bid st sender banner_id p bn).1.ownedBannersArray = st.ownedBannersArray ∧
      (bid st sender banner_id p bn).1.ownedBannersCount = st.ownedBannersCount ∧
      (bid st sender banner_id p bn).1.ownedBannersIndex = st.ownedBannersIndex ∧
      (bid st sender banner_id p bn).1.events = st.events) ∧
    (¬ bn < (st.banners banner_id).bid_end_height →
      ∀ e, (bid st sender banner_id p bn).2 = Outcome.err e →
      (bid st sender banner_id p bn).1 = bidResetSt st banner_id ∧
      ((bid st sender banner_id p bn).1.banners banner_id).can_bid = false ∧
      (bid st sender banner_id p bn).1.balances = st.balances) := by
  refine ⟨?_, ?_, ?_⟩
  · intro hfut hos hlow hfail
    rw [bid_future_eq hex howner hcb hfut, if_neg hos,
      if_neg (Nat.not_le.mpr hlow), currency_transfer_err hfail]
  · intro hfut e he
    rw [bid_future_eq hex howner hcb hfut] at he ⊢
    by_cases hos : owner = sender
    · rw [if_pos hos] at he ⊢
      exact ⟨rfl, rfl, rfl, rfl, rfl, rfl, rfl, rfl, rfl⟩
    · rw [if_neg hos] at he ⊢
      by_cases hle : p ≤ (st.banners banner_id).current_price
      · rw [if_pos hle] at he ⊢
        exact ⟨rfl, rfl, rfl, rfl, rfl, rfl, rfl, rfl, rfl⟩
      · rw [if_neg hle] at he ⊢
        rcases hc1 : currency_transfer st sender (st.banners banner_id).current_bidder
            (st.banners banner_id).current_price with ⟨st1, o1⟩
        rw [hc1] at he
        cases o1 with
        | err e1 =>
          have h1 := currency_transfer_err_inv hc1
          subst st1
          exact ⟨rfl, rfl, rfl, rfl, rfl, rfl, rfl, rfl, rfl⟩
        | ok =>
          obtain ⟨h1, hle1⟩ := currency_transfer_ok_inv hc1
          subst st1
          dsimp only at he ⊢
          rcases hc2 : currency_transfer { st with balances := transfer_balances st.balances sender (st.banners banner_id).current_bidder (st.banners banner_id).current_price } sender owner (p - (st.banners banner_id).current_price) with ⟨st2, o2⟩
          rw [hc2] at he
          cases o2 with
          | err e2 =>
            have h2 := currency_transfer_err_inv hc2
            subst st2
            exact ⟨rfl, rfl, rfl, rfl, rfl, rfl, rfl, rfl, rfl⟩
          | ok =>
            dsimp only at he
            exact absurd he (by simp)
  · intro hexp e he
    rw [bid_expired_eq hex howner hcb hexp] at he ⊢
    by_cases hfb : (st.banners banner_id).current_bidder = owner
    · rw [if_pos hfb] at he
      exact absurd he (by simp)
    · rw [if_neg hfb] at he ⊢
      rcases hq : transfer_from (bidResetSt st banner_id) owner
          (st.banners banner_id).current_bidder banner_id with ⟨st2, o⟩
      rw [hq] at he
      cases o with
      | err e1 =>
        have h1 : st2 = bidResetSt st banner_id := by
          have h2 := @transfer_from_fst_of_not_ok (bidResetSt st banner_id) owner
            ((st.banners banner_id).current_bidder) banner_id (by rw [hq]; simp)
          rw [hq] at h2
          exact h2
        subst st2
        dsimp only
        refine ⟨rfl, ?_, rfl⟩
        show ((bidResetSt st banner_id).banners banner_id).can_bid = false
        unfold bidResetSt
        simp only [Function.update_apply, eq_self_iff_true, if_true]
      | ok =>
        dsimp only at he
        exact absurd he (by simp)

theorem claim_C1_amended_witness :
    (bid stPoor 2 5 150 1 = (stPoor, Outcome.err "balance too low to send value")) ∧
    ((bid stShort 2 5 150 1).1.banners = stShort.banners ∧
     (bid stShort 2 5 150 1).1.ownedBannersCount = stShort.ownedBannersCount ∧
     (bid stShort 2 5 150 1).1.events = stShort.events) ∧
    ((bid stBad 3 5 9 14400).1 = bidResetSt stBad 5 ∧
     ((bid stBad 3 5 9 14400).1.banners 5).can_bid = false ∧
     (bid stBad 3 5 9 14400).1.balances = stBad.balances) := by
  refine ⟨?_, ?_, ?_⟩
  · exact (claim_C1_amended stPoor 2 1 5 150 1 (by decide) (by decide) (by decide)).1
      (by decide) (by decide) (by decide) (by decide)
  · have h := (claim_C1_amended stShort 2 1 5 150 1 (by decide) (by decide)
      (by decide)).2.1 (by decide) "balance too low to send value" (by decide)
    exact ⟨h.1, h.2.2.2.2.2.2.1, h.2.2.2.2.2.2.2.2⟩
  · exact (claim_C1_amended stBad 3 1 5 9 14400 (by decide) (by decide)
      (by decide)).2.2 (by decide)
      "Transfer causes underflow of from banner balance" (by decide)

theorem bid_accept_balances {st : St} {sender owner : AccountId} {banner_id : Hash}
    {p : Balance} {bn : BlockNumber}
    (hex : st.bannersExists banner_id = true)
    (howner : st.bannerOwner banner_id = some owner)
    (hcb : (st.banners banner_id).can_bid = true)
    (hfut : bn < (st.banners banner_id).bid_end_height)
    (hok : (bid st sender banner_id p bn).2 = Outcome.ok) :
    owner ≠ sender ∧ (st.banners banner_id).current_price < p ∧
    (bid st sender banner_id p bn).1.balances =
      transfer_balances
        (transfer_balances st.balances sender (st.banners banner_id).current_bidder
          (st.banners banner_id).current_price)
        sender owner (p - (st.banners banner_id).current_price) := by
  rw [bid_future_eq hex howner hcb hfut] at hok ⊢
  by_cases hos : owner = sender
  · rw [if_pos hos] at hok
    exact absurd hok (by simp)
  · rw [if_neg hos] at hok ⊢
    by_cases hle : p ≤ (st.banners banner_id).current_price
    · rw [if_pos hle] at hok
      exact absurd hok (by simp)
    · rw [if_neg hle] at hok ⊢
      rcases hc1 : currency_transfer st sender (st.banners banner_id).current_bidder
          (st.banners banner_id).current_price with ⟨st1, o1⟩
      rw [hc1] at hok
      cases o1 with
      | err e1 => simp at hok
      | ok =>
        obtain ⟨h1, hle1⟩ := currency_transfer_ok_inv hc1
        subst st1
        dsimp only at hok ⊢
        rcases hc2 : currency_transfer { st with balances := transfer_balances st.balances sender (st.banners banner_id).current_bidder (st.banners banner_id).current_price } sender owner (p - (st.banners banner_id).current_price) with ⟨st2, o2⟩
        rw [hc2] at hok
        cases o2 with
        | err e2 => simp at hok
        | ok =>
          obtain ⟨h2, hle2⟩ := currency_transfer_ok_inv hc2
          subst st2
          exact ⟨hos, Nat.not_le.mp hle, rfl⟩

/-- C2 counterexample: in the state right after startAuction at price 100
(owner 1 is the placeholder leading bidder), the first accepted bid of 150
by account 2 pays the owner 150 --- the 100 refund of the placeholder plus
the 50 increment --- not merely the 50 increment.  An accepted bid DOES
transfer value to the owner in their role as previous leading bidder, and
the total the owner receives differs from the sum of incremental payments
by the starting price. -/
theorem claim_C2_counterexample :
    (bid stOpen 2 5 150 1).2 = Outcome.ok ∧
    stOpen.bannerOwner 5 = some 1 ∧
    (stOpen.banners 5).current_bidder = 1 ∧
    (stOpen.banners 5).current_price = 100 ∧
    (bid stOpen 2 5 150 1).1.balances 1 = stOpen.balances 1 + 150 ∧
    ¬ (bid stOpen 2 5 150 1).1.balances 1 = stOpen.balances 1 + (150 - 100) := by
  decide

/-- C2 amended: starting an auction moves no funds (the owner pays nothing
for the placeholder), but on an accepted bid placed while the owner is
still the leading placeholder bidder the owner receives the FULL bid price
(the starting-price refund plus the increment); on an accepted bid placed
while a non-owner leads, the owner receives exactly the increment.  Hence
across a round with starting price s and final price P the owner receives
s + (P - s) = P in total, not the sum of increments P - s. -/
theorem claim_C2_amended (st : St) (sender owner : AccountId) (banner_id : Hash)
    (p : Balance) (bn : BlockNumber) :
    ((auction_banner st owner banner_id p bn).1.balances = st.balances) ∧
    (st.bannersExists banner_id = true → st.bannerOwner banner_id = some owner →
      (st.banners banner_id).can_bid = true →
      bn < (st.banners banner_id).bid_end_height →
      (st.banners banner_id).current_bidder = owner →
      (bid st sender banner_id p bn).2 = Outcome.ok →
      (bid st sender banner_id p bn).1.balances owner = st.balances owner + p) ∧
    (st.bannersExists banner_id = true → st.bannerOwner banner_id = some owner →
      (st.banners banner_id).can_bid = true →
      bn < (st.banners banner_id).bid_end_height →
      (st.banners banner_id).current_bidder ≠ owner →
      (bid st sender banner_id p bn).2 = Outcome.ok →
      (bid st sender banner_id p bn).1.balances owner =
        st.balances owner + (p - (st.banners banner_id).current_price)) := by
  refine ⟨?_, ?_, ?_⟩
  · by_cases hex : st.bannersExists banner_id = true
    · rcases howner : st.bannerOwner banner_id with _ | o
      · rw [auction_banner_err_of_none hex howner]
      · by_cases hos : o = owner
        · subst o
          by_cases hcb : (st.banners banner_id).can_bid = true
          · rw [auction_banner_err_of_open hex howner hcb]
          · rw [auction_banner_eq_of_idle hex howner (by simpa using hcb)]
        · rw [auction_banner_err_of_not_owner hex howner hos]
    · rw [auction_banner_err_of_not_exists (by simpa using hex)]
  · intro hex howner hcb hfut hprev hok
    obtain ⟨hos, hlow, hbal⟩ := bid_accept_balances hex howner hcb hfut hok
    rw [hbal, hprev]
    simp only [transfer_balances_apply, eq_self_iff_true, if_true, hos, if_false]
    rw [Nat.add_assoc, Nat.add_sub_cancel' (Nat.le_of_lt hlow)]
  · intro hex howner hcb hfut hprev hok
    obtain ⟨hos, hlow, hbal⟩ := bid_accept_balances hex howner hcb hfut hok
    rw [hbal]
    have hop : owner ≠ (st.banners banner_id).current_bidder := Ne.symm hprev
    simp only [transfer_balances_apply, eq_self_iff_true, if_true, hos, hop, if_false]

theorem claim_C2_amended_witness :
    ((auction_banner stIdle 1 5 100 7).1.balances = stIdle.balances) ∧
    ((bid stOpen 2 5 150 1).1.balances 1 = stOpen.balances 1 + 150) ∧
    ((bid stLed 2 5 200 1).1.balances 1 = stLed.balances 1 + (200 - 150)) := by
  refine ⟨?_, ?_, ?_⟩
  · exact (claim_C2_amended stIdle 1 1 5 100 7).1
  · exact (claim_C2_amended stOpen 2 1 5 150 1).2.1 (by decide) (by decide)
      (by decide) (by decide) (by decide) (by decide)
  · exact (claim_C2_amended stLed 2 1 5 200 1).2.2 (by decide) (by decide)
      (by decide) (by decide) (by decide) (by decide)

end Apollo